import Mathlib

/-!
Shallow embedding of the schema-aware JSON-pointer / JSON-patch validation
engine of `src/validators/json-pointer.validator.ts` and
`src/validators/json-patch.validator.ts` (the repository's patch validator,
which duplicates the resolver logic of the pointer validator; both copies are
embedded separately, mirroring the duplication in the source).

Modelling conventions:
- TypeScript runtime values are modelled by the inductive `Json`
  (numbers as `Int`; the schemas and operations relevant here carry only
  integer numerics).
- JavaScript truthiness is modelled by `truthy`; an absent object key is
  `none` under `Json.lookup` (object keys holding `undefined` are modelled as
  absent, which is observationally equivalent for every read the source
  performs on schema values).
- Object spread `{...a, ...b}` is `spreadFields`; assigning `undefined` to a
  key (e.g. `allOf: undefined`) is `eraseKey`.
- Keyword values are matched at their declared TypeScript types (e.g. `$ref`
  is read only when it is a string, `allOf` only when it is an array); values
  of other shapes — impossible under the source's `JSONSchema` type — fall
  through exactly as an absent keyword does.
- Recursion through `$ref` chains is made total with an explicit `fuel`
  parameter; `none` means the fuel ran out. The source's recursion depth for
  every input considered in the theorems below is finite and small, and the
  theorems quantify over all sufficiently large fuels (`fuel + k`) or
  evaluate at a concrete fuel, so no statement depends on fuel exhaustion.
- JavaScript `RegExp` matching (used only for `patternProperties` and
  `propertyNames.pattern`) is abstracted by `regexTest`, a literal-substring
  test; no theorem below depends on regex semantics (every claim involved
  hypothesises the absence of pattern keywords).
- String indices (`lastIndexOf`, `slice`) are modelled over characters; the
  paths involved are ASCII, where this coincides with JavaScript's UTF-16
  indexing.
-/

/-- JSON runtime values, mirroring the JavaScript values the validator
manipulates. Objects are association lists in insertion order with unique
keys, matching JavaScript object key order. -/
inductive Json where
  | null
  | bool (b : Bool)
  | num (n : Int)
  | str (s : String)
  | arr (elems : List Json)
  | obj (fields : List (String × Json))
deriving Repr

mutual
/-- Structural equality of JSON values (JavaScript `===` on primitives;
used only where the source compares primitives, e.g. `includes`). -/
def Json.beq : Json → Json → Bool
  | .null, .null => true
  | .bool a, .bool b => a == b
  | .num a, .num b => a == b
  | .str a, .str b => a == b
  | .arr a, .arr b => beqElems a b
  | .obj a, .obj b => beqFields a b
  | _, _ => false
termination_by structural j => j

/-- Pointwise equality of JSON arrays. -/
def beqElems : List Json → List Json → Bool
  | [], [] => true
  | a :: as2, b :: bs2 => Json.beq a b && beqElems as2 bs2
  | _, _ => false
termination_by structural l => l

/-- Pointwise equality of JSON object field lists. -/
def beqFields : List (String × Json) → List (String × Json) → Bool
  | [], [] => true
  | (k1, v1) :: r1, (k2, v2) :: r2 => k1 == k2 && Json.beq v1 v2 && beqFields r1 r2
  | _, _ => false
termination_by structural l => l
end

instance : BEq Json := ⟨Json.beq⟩

/-- First-match lookup in an object field list (JavaScript property read on
an object with unique keys). -/
def lookupFields : List (String × Json) → String → Option Json
  | [], _ => none
  | (k, v) :: rest, key => if k = key then some v else lookupFields rest key

/-- Property read `j[key]` when `j` is an object; `undefined` otherwise
(primitive property access the source performs on schema nodes). -/
def Json.lookup : Json → String → Option Json
  | .obj fields, key => lookupFields fields key
  | _, _ => none

/-- JavaScript truthiness of a value. -/
def truthy : Json → Bool
  | .null => false
  | .bool b => b
  | .num n => n != 0
  | .str s => s != ""
  | .arr _ => true
  | .obj _ => true

/-- JavaScript truthiness of a possibly-absent value (`undefined` is falsy). -/
def truthyOpt : Option Json → Bool
  | none => false
  | some j => truthy j

/-- JavaScript `typeof x === "object"` (true for objects, arrays and null). -/
def typeofObject : Json → Bool
  | .null => true
  | .arr _ => true
  | .obj _ => true
  | _ => false

/-- Field list of an object value, `[]` for any other value. -/
def objFields : Json → List (String × Json)
  | .obj fields => fields
  | _ => []

/-- Whether a field list declares a key. -/
def hasKey (fields : List (String × Json)) (key : String) : Bool :=
  fields.any (fun p => p.1 == key)

/-- Object spread `{...a, ...b}`: keys of `a` in order with values
overridden by `b` on collision, followed by the new keys of `b` in order. -/
def spreadFields (a b : List (String × Json)) : List (String × Json) :=
  (a.map (fun p =>
    match lookupFields b p.1 with
    | some v => (p.1, v)
    | none => p)) ++ b.filter (fun q => !hasKey a q.1)

/-- Object spread of two JSON values. -/
def objSpread (j1 j2 : Json) : Json :=
  .obj (spreadFields (objFields j1) (objFields j2))

/-- Map/object update `m.set(k, v)` (replace in place if present, else
append), as used for anchor maps and single-key overrides in spreads. -/
def mapSet (m : List (String × Json)) (k : String) (v : Json) : List (String × Json) :=
  if hasKey m k
  then m.map (fun p => if p.1 = k then (k, v) else p)
  else m ++ [(k, v)]

/-- Spread override of a single key, `{...j, key: v}`. -/
def setKey (j : Json) (key : String) (v : Json) : Json :=
  .obj (mapSet (objFields j) key v)

/-- Assignment of `undefined` to a key in a spread result
(e.g. `{...s, allOf: undefined}`): the key becomes absent for every read
the source performs. -/
def eraseKey (j : Json) (key : String) : Json :=
  .obj ((objFields j).filter (fun p => p.1 != key))

/-- Read of a keyword that the source both requires truthy and uses as a
string (e.g. `if (schema.$ref)`): yields the string when the key holds a
non-empty string, `none` otherwise. -/
def strKey (j : Json) (key : String) : Option String :=
  match j.lookup key with
  | some (.str s) => if s = "" then none else some s
  | _ => none

/-- Fields of an object-valued keyword, `[]` when absent or not an object. -/
def objFieldsOfKey (j : Json) (key : String) : List (String × Json) :=
  match j.lookup key with
  | some (.obj fs) => fs
  | _ => []

/-- Membership in a `Set<string>`. -/
def setHas (s : List String) (x : String) : Bool := s.contains x

/-- `Set<string>.add` (append if absent, preserving insertion order). -/
def setAdd (s : List String) (x : String) : List String :=
  if s.contains x then s else s ++ [x]

/-- `Set<string>.delete`. -/
def setDel (s : List String) (x : String) : List String :=
  s.filter (fun y => y != x)

/-- Character-list test of whether the first list starts with the second. -/
def startsWithList : List Char → List Char → Bool
  | _, [] => true
  | [], _ :: _ => false
  | c :: cs, p :: ps => c == p && startsWithList cs ps

/-- JavaScript `s.startsWith(pre)`. -/
def strStartsWith (s pre : String) : Bool :=
  startsWithList s.toList pre.toList

/-- Substring search for a non-empty pattern. -/
def containsSubAux (pat : List Char) : List Char → Bool
  | [] => false
  | c :: rest => startsWithList (c :: rest) pat || containsSubAux pat rest

/-- Substring test, JavaScript `hay.includes(pat)` (patterns used by the
source are literal: `"/"` and `"://"`). -/
def strContains (hay pat : String) : Bool :=
  if pat = "" then true else containsSubAux pat.toList hay.toList

/-- Global, left-to-right, non-overlapping replacement of the two-character
pattern `a b` by `rep` (JavaScript `replace(/ab/g, rep)` for a literal
two-character pattern). -/
def replacePair (a b : Char) (rep : List Char) : List Char → List Char
  | [] => []
  | [c] => [c]
  | c :: d :: rest =>
    if c = a && d = b then rep ++ replacePair a b rep rest
    else c :: replacePair a b rep (d :: rest)

/-- JSON-pointer token unescaping:
`token.replace(/~1/g, "/").replace(/~0/g, "~")`. -/
def unescapeToken (t : String) : String :=
  String.mk (replacePair '~' '0' ['~'] (replacePair '~' '1' ['/'] t.toList))

/-- JavaScript `s.split("/")` (the only separator the source splits on). -/
def splitSlash : List Char → List (List Char)
  | [] => [[]]
  | c :: rest =>
    let r := splitSlash rest
    if c = '/' then [] :: r
    else
      match r with
      | [] => [[c]]
      | h :: t => (c :: h) :: t

/-- JavaScript `s.split("/")` on strings. -/
def splitOnSlash (s : String) : List String :=
  (splitSlash s.toList).map (fun cs => String.mk cs)

/-- Tokens of a pointer string: `pointer.slice(1).split("/")`, each token
unescaped. -/
def pointerTokens (pointer : String) : List String :=
  (splitOnSlash (pointer.drop 1)).map unescapeToken

/-- Accumulator for `String.prototype.lastIndexOf` restricted to a single
character. -/
def lastIdxAux : List Char → Char → Int → Int → Int
  | [], _, _, best => best
  | c :: rest, target, i, best =>
    lastIdxAux rest target (i + 1) (if c = target then i else best)

/-- JavaScript `path.lastIndexOf("/")` (-1 when absent). -/
def lastSlashIndex (s : String) : Int :=
  lastIdxAux s.toList '/' 0 (-1)

/-- JavaScript `s.slice(0, e)` with a possibly negative end index. -/
def jsSliceZero (s : String) (e : Int) : String :=
  if e < 0 then s.take ((s.length : Int) + e).toNat else s.take e.toNat

/-- Decimal digits to a natural number. -/
def digitsToNat : List Char → Nat → Nat
  | [], acc => acc
  | c :: rest, acc => digitsToNat rest (acc * 10 + (c.toNat - '0'.toNat))

/-- JavaScript `parseInt(s, 10)`: skip leading whitespace, optional sign,
then the longest digit run; `none` models `NaN`. -/
def jsParseInt (s : String) : Option Int :=
  let cs := s.toList.dropWhile Char.isWhitespace
  let signed : Int × List Char :=
    match cs with
    | '-' :: rest => (-1, rest)
    | '+' :: rest => (1, rest)
    | _ => (1, cs)
  let ds := signed.2.takeWhile Char.isDigit
  if ds.isEmpty then none
  else some (signed.1 * (digitsToNat ds 0 : Nat))

/-- Canonical array-index strings (all digits, no superfluous leading
zero), the keys under which JavaScript property access reaches an array
element. -/
def canonicalIndex (s : String) : Option Nat :=
  match s.toList with
  | [] => none
  | c :: rest =>
    if !(c :: rest).all Char.isDigit then none
    else if c = '0' && !rest.isEmpty then none
    else some (digitsToNat (c :: rest) 0)

/-- Dynamic property access `value[key]` as performed by the `$ref`
pointer walk (objects by key, arrays and strings by canonical index, plus
the `length` property; `undefined` otherwise). -/
def jsIndex : Json → String → Option Json
  | .obj fields, key => lookupFields fields key
  | .arr elems, key =>
    (match canonicalIndex key with
     | some i => elems.get? i
     | none => if key = "length" then some (.num elems.length) else none)
  | .str s, key =>
    (match canonicalIndex key with
     | some i => (s.toList.get? i).map (fun c => Json.str (String.singleton c))
     | none => if key = "length" then some (.num s.length) else none)
  | _, _ => none

/-- The `$ref` pointer walk
`for (const segment of path) { resolved = resolved?.[key]; if (!resolved) break; }`:
each segment is unescaped, access stops at the first falsy intermediate
value, which is returned as the final `resolved`. -/
def jsWalk : Option Json → List String → Option Json
  | cur, [] => cur
  | cur, seg :: rest =>
    let nxt :=
      match cur with
      | some c => jsIndex c (unescapeToken seg)
      | none => none
    if truthyOpt nxt then jsWalk nxt rest else nxt

/-- Modelled from the runtime, not the repository: JavaScript
`new RegExp(pattern).test(token)`, abstracted as a literal-substring test
(`some` result; `none` would model a constructor throw, which this
abstraction never produces). Every theorem below hypothesises the absence
of `patternProperties` and `propertyNames`, so no result depends on this
abstraction. -/
def regexTest (pattern token : String) : Option Bool :=
  some (strContains token pattern)

mutual
/-- JavaScript template-literal stringification `${v}` (used only inside
the "Invalid operation" error message). -/
def jsDisplay : Json → String
  | .null => "null"
  | .bool b => if b then "true" else "false"
  | .num n => toString n
  | .str s => s
  | .arr elems => jsDisplayList elems
  | .obj _ => "[object Object]"
termination_by structural j => j

/-- Array stringification: elements joined by commas. -/
def jsDisplayList : List Json → String
  | [] => ""
  | [x] => jsDisplay x
  | x :: y :: rest => jsDisplay x ++ "," ++ jsDisplayList (y :: rest)
termination_by structural l => l
end

/-- Per-call resolution context of the pointer validator (`SchemaContext`):
root schema, flattened definitions (built but never read by the source),
cycle-guard set, and the anchor map. -/
structure SchemaContext where
  root : Json
  definitions : List (String × Json)
  visited : List String
  anchors : List (String × Json)
deriving Repr

mutual
/-- Anchor pre-pass `collectAnchors`: register the node's `$anchor` and
`$dynamicAnchor` (truthy strings), then recurse into the values of
`properties` and then of `$defs`, in that order. -/
def collectAnchors (schema : Json) (acc : List (String × Json)) : List (String × Json) :=
  match schema with
  | .obj fields =>
    let acc1 :=
      match lookupFields fields "$anchor" with
      | some (.str a) => if a = "" then acc else mapSet acc a (.obj fields)
      | _ => acc
    let acc2 :=
      match lookupFields fields "$dynamicAnchor" with
      | some (.str a) => if a = "" then acc1 else mapSet acc1 a (.obj fields)
      | _ => acc1
    collectDefsWalk fields (collectPropsWalk fields acc2)
  | _ => acc
termination_by structural schema

/-- Recursion of the anchor pre-pass into the `properties` keyword of a
field list. -/
def collectPropsWalk (fields : List (String × Json)) (acc : List (String × Json)) :
    List (String × Json) :=
  match fields with
  | [] => acc
  | (k, Json.obj subs) :: rest =>
    if k = "properties" then collectPropsWalk rest (collectValues subs acc)
    else collectPropsWalk rest acc
  | _ :: rest => collectPropsWalk rest acc
termination_by structural fields

/-- Recursion of the anchor pre-pass into the `$defs` keyword of a field
list. -/
def collectDefsWalk (fields : List (String × Json)) (acc : List (String × Json)) :
    List (String × Json) :=
  match fields with
  | [] => acc
  | (k, Json.obj subs) :: rest =>
    if k = "$defs" then collectDefsWalk rest (collectValues subs acc)
    else collectDefsWalk rest acc
  | _ :: rest => collectDefsWalk rest acc
termination_by structural fields

/-- Anchor pre-pass over each value of a field list in key order. -/
def collectValues (fields : List (String × Json)) (acc : List (String × Json)) :
    List (String × Json) :=
  match fields with
  | [] => acc
  | (_, v) :: rest => collectValues rest (collectAnchors v acc)
termination_by structural fields
end

/-- List of declared types: `Array.isArray(t) ? t : [t]`. -/
def typeList (v : Json) : List Json :=
  match v with
  | .arr l => l
  | x => [x]

/-- Whether the declared `type` keyword includes the given type name
(`schemaTypes.includes(t)`; an absent `type` yields `[undefined]`, which
includes no type name). -/
def typeIncludes (ty : Option Json) (t : String) : Bool :=
  match ty with
  | some (.arr l) => l.contains (Json.str t)
  | some x => x == Json.str t
  | none => false

/-- First-occurrence deduplication, `[...new Set(l)]`. -/
def dedupAux : List Json → List Json → List Json
  | [], _ => []
  | x :: rest, seen =>
    if seen.contains x then dedupAux rest seen
    else x :: dedupAux rest (x :: seen)

/-- Deduplicate a JSON array keeping first occurrences. -/
def dedupJson (l : List Json) : List Json := dedupAux l []

/-- Elements of an array-valued keyword coerced by `|| []`. -/
def arrOfKey (j : Json) (key : String) : List Json :=
  match j.lookup key with
  | some (.arr l) => l
  | _ => []

/-- Numeric keyword coerced by `|| 0`. -/
def numOrZero (j : Json) (key : String) : Int :=
  match j.lookup key with
  | some (.num n) => n
  | _ => 0

/-- Numeric keyword as an option (for `?? Infinity` handling). -/
def numOpt (j : Json) (key : String) : Option Int :=
  match j.lookup key with
  | some (.num n) => some n
  | _ => none

/-- Key-wise union step of the schema merge for `properties` and
`patternProperties` (`merged[key] = {...s1[key], ...s2[key]}` when either
side declares the keyword). -/
def mergePropsStep (s1 s2 : Json) (key : String) (m : List (String × Json)) :
    List (String × Json) :=
  if truthyOpt (s1.lookup key) || truthyOpt (s2.lookup key)
  then mapSet m key
    (.obj (spreadFields (objFieldsOfKey s1 key) (objFieldsOfKey s2 key)))
  else m

/-- Set-union step of the schema merge for `required`
(`[...new Set([...(s1.required || []), ...(s2.required || [])])]`). -/
def mergeRequiredStep (s1 s2 : Json) (m : List (String × Json)) : List (String × Json) :=
  if truthyOpt (s1.lookup "required") || truthyOpt (s2.lookup "required")
  then mapSet m "required"
    (.arr (dedupJson (arrOfKey s1 "required" ++ arrOfKey s2 "required")))
  else m

/-- Intersection step of the schema merge for `type`: when both sides
declare a truthy `type` and the intersection of their type lists is
non-empty, the intersection (unwrapped when a singleton) replaces the
spread value; an empty intersection leaves the spread result untouched. -/
def mergeTypeStep (s1 s2 : Json) (m : List (String × Json)) : List (String × Json) :=
  match s1.lookup "type", s2.lookup "type" with
  | some t1, some t2 =>
    if truthy t1 && truthy t2 then
      match (typeList t1).filter (fun t => (typeList t2).contains t) with
      | [] => m
      | [t] => mapSet m "type" t
      | ts => mapSet m "type" (.arr ts)
    else m
  | _, _ => m

/-- Maximum step of the schema merge for `minProperties`
(`Math.max(s1.minProperties || 0, s2.minProperties || 0)` when either
side declares it). -/
def mergeMinPropsStep (s1 s2 : Json) (m : List (String × Json)) : List (String × Json) :=
  if (s1.lookup "minProperties").isSome || (s2.lookup "minProperties").isSome
  then mapSet m "minProperties"
    (.num (max (numOrZero s1 "minProperties") (numOrZero s2 "minProperties")))
  else m

/-- Minimum step of the schema merge for `maxProperties`
(`Math.min(s1.maxProperties ?? Infinity, s2.maxProperties ?? Infinity)`,
assigned only when finite). -/
def mergeMaxPropsStep (s1 s2 : Json) (m : List (String × Json)) : List (String × Json) :=
  if (s1.lookup "maxProperties").isSome || (s2.lookup "maxProperties").isSome
  then
    match numOpt s1 "maxProperties", numOpt s2 "maxProperties" with
    | some a, some b => mapSet m "maxProperties" (.num (min a b))
    | some a, none => mapSet m "maxProperties" (.num a)
    | none, some b => mapSet m "maxProperties" (.num b)
    | none, none => m
  else m

/-- Schema merge `mergeSchemas` of the pointer validator: object spread of
the two nodes, then key-wise union of `properties`/`patternProperties`,
set union of `required`, intersection of `type`, maximum of
`minProperties`, minimum of `maxProperties`. -/
def mergeSchemas (s1 s2 : Json) : Json :=
  Json.obj (mergeMaxPropsStep s1 s2 (mergeMinPropsStep s1 s2 (mergeTypeStep s1 s2
    (mergeRequiredStep s1 s2 (mergePropsStep s1 s2 "patternProperties"
      (mergePropsStep s1 s2 "properties"
        (spreadFields (objFields s1) (objFields s2))))))))

mutual
/-- `resolveSchema` of the pointer validator: `$ref`, `$dynamicRef`,
`allOf` folding via `mergeSchemas`, first branch of `anyOf`/`oneOf`,
stripping of `not`, merged `then`/`else` for `if`, else the node itself.
The cycle-guard set is threaded as the `visited` component of the result. -/
def resolveSchema : Nat → Json → SchemaContext → Option (Json × List String)
  | 0, _, _ => none
  | fuel + 1, schema, ctx =>
    match strKey schema "$ref" with
    | some r => resolveRef fuel r ctx schema
    | none =>
    match strKey schema "$dynamicRef" with
    | some r => resolveRef fuel r ctx schema
    | none =>
    match schema.lookup "allOf" with
    | some (.arr branches) =>
      (match resolveMergeList fuel branches (.obj []) ctx with
       | none => none
       | some (merged, v) => some (eraseKey (objSpread schema merged) "allOf", v))
    | _ =>
    match schema.lookup "anyOf" with
    | some (.arr (b :: _)) => resolveSchema fuel b ctx
    | _ =>
    match schema.lookup "oneOf" with
    | some (.arr (b :: _)) => resolveSchema fuel b ctx
    | _ =>
    if truthyOpt (schema.lookup "not") then
      some (eraseKey schema "not", ctx.visited)
    else if truthyOpt (schema.lookup "if") then
      let schemas :=
        (if truthyOpt (schema.lookup "then")
         then [(schema.lookup "then").getD .null] else [])
        ++ (if truthyOpt (schema.lookup "else")
            then [(schema.lookup "else").getD .null] else [])
      match schemas with
      | [] => some (schema, ctx.visited)
      | _ =>
        (match resolveMergeList fuel schemas (.obj []) ctx with
         | none => none
         | some (merged, v) =>
           some (eraseKey (eraseKey (eraseKey (objSpread schema merged) "if") "then") "else", v))
    else some (schema, ctx.visited)
termination_by structural fuel _ _ => fuel

/-- Fold of `mergeSchemas` over resolved branches
(`branches.reduce((acc, s) => mergeSchemas(acc, resolveSchema(s, ctx)), {})`),
threading the shared cycle-guard set. -/
def resolveMergeList : Nat → List Json → Json → SchemaContext → Option (Json × List String)
  | 0, _, _, _ => none
  | _ + 1, [], acc, ctx => some (acc, ctx.visited)
  | fuel + 1, s :: rest, acc, ctx =>
    match resolveSchema fuel s ctx with
    | none => none
    | some (resolved, v) =>
      resolveMergeList fuel rest (mergeSchemas acc resolved) { ctx with visited := v }
termination_by structural fuel _ _ _ => fuel

/-- `resolveRef` of the pointer validator: guard-set check, then bare
anchor lookup, then in-document JSON-pointer walk, then the
relative-reference shortcut; the guard entry is deleted only on the final
fallthrough path (the source does not delete it when a target is found or
when the reference is a non-fragment form). -/
def resolveRef : Nat → String → SchemaContext → Json → Option (Json × List String)
  | 0, _, _, _ => none
  | fuel + 1, ref, ctx, _currentSchema =>
    if setHas ctx.visited ref then some (.obj [], ctx.visited)
    else
      let v1 := setAdd ctx.visited ref
      let ctx1 := { ctx with visited := v1 }
      let anchorHit : Option Json :=
        if strStartsWith ref "#" && !strContains ref "/"
        then lookupFields ctx.anchors (ref.drop 1)
        else none
      match anchorHit with
      | some target => resolveSchema fuel target ctx1
      | none =>
        let ptrHit : Option Json :=
          if strStartsWith ref "#/" then
            match jsWalk (some ctx.root) (splitOnSlash (ref.drop 2)) with
            | some r => if truthy r && typeofObject r then some r else none
            | none => none
          else none
        match ptrHit with
        | some target => resolveSchema fuel target ctx1
        | none =>
          if !strStartsWith ref "#" && !strContains ref "://"
          then some (.obj [], v1)
          else some (.obj [], setDel v1 ref)
termination_by structural fuel _ _ _ => fuel
end

/-- First `patternProperties` entry whose pattern matches the token
(patterns raising on construction are skipped). -/
def firstPatternMatch : List (String × Json) → String → Option Json
  | [], _ => none
  | (pat, v) :: rest, token =>
    match regexTest pat token with
    | some true => some v
    | _ => firstPatternMatch rest token

/-- The `propertyNames` constraint checks of `tryObjectTraversal`:
`const`, `enum`, `pattern`, `minLength`, `maxLength` against the token. -/
def propertyNamesOk (resolved : Json) (token : String) : Bool :=
  (match resolved.lookup "const" with
   | some c => c == Json.str token
   | none => true)
  && (match resolved.lookup "enum" with
      | some (.arr l) => l.contains (Json.str token)
      | _ => true)
  && (match strKey resolved "pattern" with
      | some pat =>
        (match regexTest pat token with
         | some ok => ok
         | none => true)
      | none => true)
  && (match resolved.lookup "minLength" with
      | some (.num n) => !((token.length : Int) < n)
      | _ => true)
  && (match resolved.lookup "maxLength" with
      | some (.num n) => !((token.length : Int) > n)
      | _ => true)

/-- Tail of `tryObjectTraversal` after the `propertyNames` checks:
`additionalProperties`, `dependentSchemas`, permissive default `{}`. -/
def tryObjectTail (token : String) (schema : Json) : Option Json :=
  let depOrDefault : Option Json :=
    match schema.lookup "dependentSchemas" with
    | some ds =>
      if truthy ds then
        match jsIndex ds token with
        | some v => if truthy v then some v else some (.obj [])
        | none => some (.obj [])
      else some (.obj [])
    | none => some (.obj [])
  match schema.lookup "additionalProperties" with
  | some (.bool false) => none
  | some ap => if typeofObject ap then some ap else depOrDefault
  | none => depOrDefault

/-- `tryObjectTraversal`: explicit `properties`, then `patternProperties`,
then the `propertyNames` constraint (which resolves its schema and may
grow the cycle-guard set), then `additionalProperties`/`dependentSchemas`
with permissive default. The inner option is the returned schema
(`none` is the source's `null`); the outer `none` is fuel exhaustion. -/
def tryObjectTraversal : Nat → String → Json → SchemaContext → Option (Option Json × List String)
  | 0, _, _, _ => none
  | fuel + 1, token, schema, ctx =>
    let propHit : Option Json :=
      match schema.lookup "properties" with
      | some (.obj pfs) => lookupFields pfs token
      | _ => none
    match propHit with
    | some v => some (some v, ctx.visited)
    | none =>
      let patHit : Option Json :=
        match schema.lookup "patternProperties" with
        | some (.obj pps) => firstPatternMatch pps token
        | _ => none
      match patHit with
      | some v => some (some v, ctx.visited)
      | none =>
        if truthyOpt (schema.lookup "propertyNames") then
          match resolveSchema fuel ((schema.lookup "propertyNames").getD .null) ctx with
          | none => none
          | some (resolved, v1) =>
            if propertyNamesOk resolved token
            then some (tryObjectTail token schema, v1)
            else some (none, v1)
        else some (tryObjectTail token schema, ctx.visited)

/-- `tryArrayTraversal`: canonical non-negative integer token, `maxItems`
bound, then `prefixItems` with `items` overflow, legacy tuple `items` with
`additionalItems` overflow, single-schema `items`, permissive default. -/
def tryArrayTraversal (token : String) (schema : Json) : Option Json :=
  match jsParseInt token with
  | none => none
  | some index =>
    if index < 0 || toString index != token then none
    else
      let withinMax :=
        match schema.lookup "maxItems" with
        | some (.num m) => !(index ≥ m)
        | _ => true
      if !withinMax then none
      else
        match schema.lookup "prefixItems" with
        | some (.arr ps) =>
          if index < (ps.length : Int) then ps.get? index.toNat
          else
            (match schema.lookup "items" with
             | none => some (.obj [])
             | some (.bool false) => none
             | some (.obj fs) => some (.obj fs)
             | some .null => some .null
             | some _ => some (.obj []))
        | _ =>
          match schema.lookup "items" with
          | some (.arr ts) =>
            if index < (ts.length : Int) then ts.get? index.toNat
            else
              (match schema.lookup "additionalItems" with
               | some (.bool false) => none
               | some ai => if typeofObject ai then some ai else some (.obj [])
               | none => some (.obj []))
          | none => some (.obj [])
          | some (.bool false) => none
          | some (.obj fs) => some (.obj fs)
          | some .null => some .null
          | some _ => some (.obj [])

mutual
/-- `getNextSchema`: object-shaped dispatch when the type set includes
`object`, `properties`/`patternProperties` are declared, or no `type` is
declared; array-shaped dispatch when the type set includes `array` or
`items`/`prefixItems` is truthy; then, for a multi-type declaration, each
type is retried in turn. A falsy candidate falls through exactly as the
source's truthiness checks do. -/
def getNextSchema : Nat → String → Json → SchemaContext → Option (Option Json × List String)
  | 0, _, _, _ => none
  | fuel + 1, token, schema, ctx =>
    let objApplicable :=
      typeIncludes (schema.lookup "type") "object"
      || truthyOpt (schema.lookup "properties")
      || truthyOpt (schema.lookup "patternProperties")
      || !truthyOpt (schema.lookup "type")
    match (if objApplicable then tryObjectTraversal fuel token schema ctx
           else some (none, ctx.visited)) with
    | none => none
    | some (objRes, v1) =>
      if truthyOpt objRes then some (objRes, v1)
      else
        let arrApplicable :=
          typeIncludes (schema.lookup "type") "array"
          || truthyOpt (schema.lookup "items")
          || truthyOpt (schema.lookup "prefixItems")
        let arrRes := if arrApplicable then tryArrayTraversal token schema else none
        if truthyOpt arrRes then some (arrRes, v1)
        else
          match schema.lookup "type" with
          | some (.arr types) =>
            if types.length > 1
            then tryTypes fuel token schema types { ctx with visited := v1 }
            else some (none, v1)
          | _ => some (none, v1)
termination_by structural fuel _ _ _ => fuel

/-- Retry loop over a multi-type declaration: each declared type is
substituted for `type` and `getNextSchema` retried, returning the first
truthy result. -/
def tryTypes : Nat → String → Json → List Json → SchemaContext → Option (Option Json × List String)
  | 0, _, _, _, _ => none
  | _ + 1, _, _, [], ctx => some (none, ctx.visited)
  | fuel + 1, token, schema, t :: rest, ctx =>
    match getNextSchema fuel token (setKey schema "type" t) ctx with
    | none => none
    | some (res, v) =>
      if truthyOpt res then some (res, v)
      else tryTypes fuel token schema rest { ctx with visited := v }
termination_by structural fuel _ _ _ _ => fuel
end

/-- `validateTokens`: fold over the pointer tokens, resolving the current
schema, rejecting on a falsy resolution or a declared `const`/`enum`, and
stepping with `getNextSchema`. The cycle-guard set persists across
tokens, as the shared context does in the source. -/
def validateTokens (fuel : Nat) : List String → Json → SchemaContext → Option Bool
  | [], _, _ => some true
  | token :: rest, schema, ctx =>
    match resolveSchema fuel schema ctx with
    | none => none
    | some (cur, v1) =>
      if !truthy cur then some false
      else if (cur.lookup "const").isSome || (cur.lookup "enum").isSome then some false
      else
        match getNextSchema fuel token cur { ctx with visited := v1 } with
        | none => none
        | some (res, v2) =>
          match res with
          | some nxt =>
            if truthy nxt then validateTokens fuel rest nxt { ctx with visited := v2 }
            else some false
          | none => some false

/-- `validateJSONPointer` (the public `isValidPointer`): empty and `/`
pointers are the root and valid; other pointers must start with `/`; the
tokens are validated against a fresh context whose anchor map is built by
the pre-pass. -/
def validateJSONPointer (fuel : Nat) (pointer : String) (schema : Json) : Option Bool :=
  if pointer = "" || pointer = "/" then some true
  else if !strStartsWith pointer "/" then some false
  else
    let ctx : SchemaContext :=
      { root := schema
        definitions := spreadFields (objFieldsOfKey schema "$defs")
          (objFieldsOfKey schema "definitions")
        visited := []
        anchors := collectAnchors schema [] }
    validateTokens fuel (pointerTokens pointer) schema ctx

/-- The patch validator's `mergeSchemas` copy: object spread, key-wise
union of `properties`/`patternProperties`, set union of `required`,
`type` intersection — without the `minProperties`/`maxProperties`
handling of the pointer validator's copy. -/
def mergeSchemasP (s1 s2 : Json) : Json :=
  Json.obj (mergeTypeStep s1 s2 (mergeRequiredStep s1 s2
    (mergePropsStep s1 s2 "patternProperties" (mergePropsStep s1 s2 "properties"
      (spreadFields (objFields s1) (objFields s2))))))

mutual
/-- The patch validator's own `resolveSchema` copy (second definition in
the source): `$ref` with in-document pointer walk only (no anchors, no
`$dynamicRef`, no `not`/`if` handling), `allOf` folding via the patch
validator's `mergeSchemas` copy, first branch of `anyOf`/`oneOf`. On a
`$ref` whose walk finds no object target the guard entry is deleted and
`{}` returned. -/
def resolveSchemaP : Nat → Json → Json → List String → Option (Json × List String)
  | 0, _, _, _ => none
  | fuel + 1, schema, root, visited =>
    match strKey schema "$ref" with
    | some refPath =>
      if setHas visited refPath then some (.obj [], visited)
      else
        let v1 := setAdd visited refPath
        let ptrHit : Option Json :=
          if strStartsWith refPath "#/" then
            match jsWalk (some root) (splitOnSlash (refPath.drop 2)) with
            | some r => if truthy r && typeofObject r then some r else none
            | none => none
          else none
        match ptrHit with
        | some target => resolveSchemaP fuel target root v1
        | none => some (.obj [], setDel v1 refPath)
    | none =>
      match schema.lookup "allOf" with
      | some (.arr branches) =>
        (match resolveMergeListP fuel branches (.obj []) root visited with
         | none => none
         | some (merged, v) => some (eraseKey (objSpread schema merged) "allOf", v))
      | _ =>
        match schema.lookup "anyOf" with
        | some (.arr (b :: _)) => resolveSchemaP fuel b root visited
        | _ =>
          match schema.lookup "oneOf" with
          | some (.arr (b :: _)) => resolveSchemaP fuel b root visited
          | _ => some (schema, visited)
termination_by structural fuel _ _ _ => fuel

/-- Fold of the patch validator's `mergeSchemas` copy over resolved
branches, threading the shared cycle-guard set. -/
def resolveMergeListP : Nat → List Json → Json → Json → List String → Option (Json × List String)
  | 0, _, _, _, _ => none
  | _ + 1, [], acc, _, visited => some (acc, visited)
  | fuel + 1, s :: rest, acc, root, visited =>
    match resolveSchemaP fuel s root visited with
    | none => none
    | some (resolved, v) => resolveMergeListP fuel rest (mergeSchemasP acc resolved) root v
termination_by structural fuel _ _ _ _ => fuel
end

/-- `getNextSchemaForToken` of the patch validator: a reduced traversal
step — object dispatch (explicit `properties`, `patternProperties`,
`additionalProperties`, permissive default; no `propertyNames`, no
`dependentSchemas`, no `patternProperties` in the applicability test)
always returns when applicable; otherwise array dispatch without a
`maxItems` check; otherwise `null`. The `rootSchema` parameter is unused,
as in the source. -/
def getNextSchemaForToken (token : String) (schema _rootSchema : Json) : Option Json :=
  let objApplicable :=
    typeIncludes (schema.lookup "type") "object"
    || truthyOpt (schema.lookup "properties")
    || !truthyOpt (schema.lookup "type")
  if objApplicable then
    match (match schema.lookup "properties" with
           | some (.obj pfs) => lookupFields pfs token
           | _ => none) with
    | some v => some v
    | none =>
      match (match schema.lookup "patternProperties" with
             | some (.obj pps) => firstPatternMatch pps token
             | _ => none) with
      | some v => some v
      | none =>
        match schema.lookup "additionalProperties" with
        | some (.bool false) => none
        | some ap => if typeofObject ap then some ap else some (.obj [])
        | none => some (.obj [])
  else if typeIncludes (schema.lookup "type") "array"
      || truthyOpt (schema.lookup "items")
      || truthyOpt (schema.lookup "prefixItems") then
    match jsParseInt token with
    | none => none
    | some index =>
      if index < 0 || toString index != token then none
      else
        match schema.lookup "prefixItems" with
        | some (.arr ps) =>
          if index < (ps.length : Int) then ps.get? index.toNat
          else
            (match schema.lookup "items" with
             | none => some (.obj [])
             | some (.bool false) => none
             | some (.obj fs) => some (.obj fs)
             | some .null => some .null
             | some _ => some (.obj []))
        | _ =>
          match schema.lookup "items" with
          | some (.arr ts) =>
            if index < (ts.length : Int) then ts.get? index.toNat
            else
              (match schema.lookup "additionalItems" with
               | some (.bool false) => none
               | some ai => if typeofObject ai then some ai else some (.obj [])
               | none => some (.obj []))
          | none => some (.obj [])
          | some (.bool false) => none
          | some (.obj fs) => some (.obj fs)
          | some .null => some .null
          | some _ => some (.obj [])
  else none

/-- Token loop of `getSchemaAtPath`: each token resolves the current
schema against a freshly-constructed context (empty guard set) and steps
with `getNextSchemaForToken`; a falsy resolution or step yields
not-found. -/
def schemaAtTokens (fuel : Nat) : List String → Json → Json → Option (Option Json)
  | [], cur, _ => some (some cur)
  | token :: rest, cur, root =>
    match resolveSchemaP fuel cur root [] with
    | none => none
    | some (resolved, _) =>
      if !truthy resolved then some none
      else
        match getNextSchemaForToken token resolved root with
        | some nxt =>
          if truthy nxt then schemaAtTokens fuel rest nxt root else some none
        | none => some none

/-- `getSchemaAtPath` (the internal `schemaAt`): root for the empty and
`/` paths, otherwise the token loop. -/
def getSchemaAtPath (fuel : Nat) (path : String) (schema : Json) : Option (Option Json) :=
  if path = "" || path = "/" then some (some schema)
  else schemaAtTokens fuel (pointerTokens path) schema schema

/-- `checkRequiredProperty`: split the path at its last slash; paths whose
last slash is at position zero or absent are skipped entirely (the
`lastSlash === 0` arm of the parent-path computation is unreachable, as in
the source); otherwise, when the parent schema's `required` array contains
the trailing property name, the removal-protection message is produced. -/
def checkRequiredProperty (fuel : Nat) (path : String) (schema : Json) : Option (Option String) :=
  let lastSlash := lastSlashIndex path
  if lastSlash ≤ 0 then some none
  else
    let parentPath := if lastSlash = 0 then "/" else jsSliceZero path lastSlash
    let propertyName := path.drop (lastSlash + 1).toNat
    match getSchemaAtPath fuel parentPath schema with
    | none => none
    | some none => some none
    | some (some parent) =>
      if truthyOpt (parent.lookup "required") then
        match parent.lookup "required" with
        | some (.arr l) =>
          if l.contains (Json.str propertyName)
          then some (some ("Cannot remove required property \"" ++ propertyName ++ "\""))
          else some none
        | _ => some none
      else some none

/-- `validateAddPath`: root paths are valid; otherwise the parent path
must validate, and the target segment is accepted when it is `-` or a
round-tripping integer, else the full path must validate. -/
def validateAddPath (fuel : Nat) (path : String) (schema : Json) : Option (Bool × String) :=
  if path = "" || path = "/" then some (true, "")
  else
    let lastSlash := lastSlashIndex path
    let parentPath := if lastSlash = 0 then "/" else jsSliceZero path lastSlash
    let target := path.drop (lastSlash + 1).toNat
    if parentPath = "/" && target = "" then some (true, "")
    else
      match validateJSONPointer fuel parentPath schema with
      | none => none
      | some parentOk =>
        if !parentOk then
          some (false, "Parent path \"" ++ parentPath ++ "\" is not valid according to schema")
        else if target = "-" then some (true, "")
        else
          let fullCheck : Option (Bool × String) :=
            match validateJSONPointer fuel path schema with
            | none => none
            | some ok =>
              if ok then some (true, "")
              else some (false, "Path \"" ++ path ++ "\" is not valid according to schema")
          match jsParseInt target with
          | some index =>
            if toString index = target then some (true, "")
            else fullCheck
          | none => fullCheck

/-- `validateAdd`: requires a truthy `path`, a present `value`, a string
`path`, then the `add`-style parent reachability of `validateAddPath`. -/
def validateAdd (fuel : Nat) (operation schema : Json) (index : Int) :
    Option (List (Int × String)) :=
  if !truthyOpt (operation.lookup "path") then
    some [(index, "Add operation must have a \"path\" property")]
  else if (operation.lookup "value").isNone then
    some [(index, "Add operation must have a \"value\" property")]
  else
    match operation.lookup "path" with
    | some (.str p) =>
      (match validateAddPath fuel p schema with
       | none => none
       | some (ok, err) => if ok then some [] else some [(index, err)])
    | _ => some [(index, "Path must be a string")]

/-- `validateRemove`: requires a truthy string `path`, then accumulates a
reachability error and a required-property-protection error. -/
def validateRemove (fuel : Nat) (operation schema : Json) (index : Int) :
    Option (List (Int × String)) :=
  if !truthyOpt (operation.lookup "path") then
    some [(index, "Remove operation must have a \"path\" property")]
  else
    match operation.lookup "path" with
    | some (.str p) =>
      (match validateJSONPointer fuel p schema with
       | none => none
       | some ok =>
         match checkRequiredProperty fuel p schema with
         | none => none
         | some req =>
           some ((if ok then []
                  else [(index, "Path \"" ++ p ++ "\" is not valid according to schema")])
             ++ (match req with
                 | some msg => [(index, msg)]
                 | none => [])))
    | _ => some [(index, "Path must be a string")]

/-- `validateReplace`: requires a truthy `path`, a present `value`, a
string `path`, then exact reachability of the path. -/
def validateReplace (fuel : Nat) (operation schema : Json) (index : Int) :
    Option (List (Int × String)) :=
  if !truthyOpt (operation.lookup "path") then
    some [(index, "Replace operation must have a \"path\" property")]
  else if (operation.lookup "value").isNone then
    some [(index, "Replace operation must have a \"value\" property")]
  else
    match operation.lookup "path" with
    | some (.str p) =>
      (match validateJSONPointer fuel p schema with
       | none => none
       | some ok =>
         if ok then some []
         else some [(index, "Path \"" ++ p ++ "\" is not valid according to schema")])
    | _ => some [(index, "Path must be a string")]

/-- Whether an optional value is a string (`typeof v === "string"`). -/
def isStrOpt : Option Json → Bool
  | some (.str _) => true
  | _ => false

/-- `validateMove`: missing-field errors for `from`/`path` (both
collected), then string-type errors (both collected), then accumulation
of `from` reachability, `add`-style destination reachability, the
source-is-child-of-destination check `from.startsWith(path + "/")`, and
required-property protection of `from`. -/
def validateMove (fuel : Nat) (operation schema : Json) (index : Int) :
    Option (List (Int × String)) :=
  let fromV := operation.lookup "from"
  let pathV := operation.lookup "path"
  let missing :=
    (if !truthyOpt fromV then [(index, "Move operation must have a \"from\" property")] else [])
    ++ (if !truthyOpt pathV then [(index, "Move operation must have a \"path\" property")] else [])
  if !missing.isEmpty then some missing
  else
    match fromV, pathV with
    | some (.str f), some (.str p) =>
      (match validateJSONPointer fuel f schema with
       | none => none
       | some fromOk =>
         match validateAddPath fuel p schema with
         | none => none
         | some (pathOk, pathErr) =>
           match checkRequiredProperty fuel f schema with
           | none => none
           | some req =>
             some ((if fromOk then []
                    else [(index, "From path \"" ++ f ++ "\" is not valid according to schema")])
               ++ (if pathOk then [] else [(index, pathErr)])
               ++ (if strStartsWith f (p ++ "/")
                   then [(index, "Cannot move to a location that is a child of the source")]
                   else [])
               ++ (match req with
                   | some msg => [(index, msg)]
                   | none => [])))
    | fv, pv =>
      some ((if !isStrOpt fv then [(index, "From must be a string")] else [])
        ++ (if !isStrOpt pv then [(index, "Path must be a string")] else []))

/-- `validateCopy`: as `validateMove` but without the self-containment and
required-property checks. -/
def validateCopy (fuel : Nat) (operation schema : Json) (index : Int) :
    Option (List (Int × String)) :=
  let fromV := operation.lookup "from"
  let pathV := operation.lookup "path"
  let missing :=
    (if !truthyOpt fromV then [(index, "Copy operation must have a \"from\" property")] else [])
    ++ (if !truthyOpt pathV then [(index, "Copy operation must have a \"path\" property")] else [])
  if !missing.isEmpty then some missing
  else
    match fromV, pathV with
    | some (.str f), some (.str p) =>
      (match validateJSONPointer fuel f schema with
       | none => none
       | some fromOk =>
         match validateAddPath fuel p schema with
         | none => none
         | some (pathOk, pathErr) =>
           some ((if fromOk then []
                  else [(index, "From path \"" ++ f ++ "\" is not valid according to schema")])
             ++ (if pathOk then [] else [(index, pathErr)])))
    | fv, pv =>
      some ((if !isStrOpt fv then [(index, "From must be a string")] else [])
        ++ (if !isStrOpt pv then [(index, "Path must be a string")] else []))

/-- `validateTest`: requires a truthy `path`, a present `value`, a string
`path`, then exact reachability of the path. -/
def validateTest (fuel : Nat) (operation schema : Json) (index : Int) :
    Option (List (Int × String)) :=
  if !truthyOpt (operation.lookup "path") then
    some [(index, "Test operation must have a \"path\" property")]
  else if (operation.lookup "value").isNone then
    some [(index, "Test operation must have a \"value\" property")]
  else
    match operation.lookup "path" with
    | some (.str p) =>
      (match validateJSONPointer fuel p schema with
       | none => none
       | some ok =>
         if ok then some []
         else some [(index, "Path \"" ++ p ++ "\" is not valid according to schema")])
    | _ => some [(index, "Path must be a string")]

/-- `validateOperation`: shape checks (truthy object, truthy `op`,
recognised `op` value), then dispatch to the per-operation validator;
each failed shape check is fail-fast within the operation. -/
def validateOperation (fuel : Nat) (operation schema : Json) (index : Int) :
    Option (List (Int × String)) :=
  if !(truthy operation && typeofObject operation) then
    some [(index, "Operation must be an object")]
  else if !truthyOpt (operation.lookup "op") then
    some [(index, "Operation must have an \"op\" property")]
  else
    match (operation.lookup "op").getD .null with
    | .str "add" => validateAdd fuel operation schema index
    | .str "remove" => validateRemove fuel operation schema index
    | .str "replace" => validateReplace fuel operation schema index
    | .str "move" => validateMove fuel operation schema index
    | .str "copy" => validateCopy fuel operation schema index
    | .str "test" => validateTest fuel operation schema index
    | other =>
      some [(index, "Invalid operation \"" ++ jsDisplay other
        ++ "\". Must be one of: add, remove, replace, move, copy, test")]

/-- Accumulating loop of `validateJSONPatch` over the operations, by
index: every operation is validated and its errors appended, regardless
of its siblings. -/
def validateOpsList (fuel : Nat) : List Json → Int → Json → Option (List (Int × String))
  | [], _, _ => some []
  | op :: rest, i, schema =>
    match validateOperation fuel op schema i with
    | none => none
    | some errs =>
      match validateOpsList fuel rest (i + 1) schema with
      | none => none
      | some more => some (errs ++ more)

/-- `validateJSONPatch` (the public `validatePatch`): a non-array input
yields the single batch-level error at index `-1`; otherwise the
accumulated per-operation errors, with `valid` exactly when no error was
collected. -/
def validateJSONPatch (fuel : Nat) (patch schema : Json) : Option (Bool × List (Int × String)) :=
  match patch with
  | .arr ops =>
    (match validateOpsList fuel ops 0 schema with
     | none => none
     | some errs => some (errs.isEmpty, errs))
  | _ => some (false, [(-1, "Patch must be an array")])

/-! Helper lemmas about the embedding's primitive object operations. -/

/-- A successful property read forces the value to be an object, which is
truthy. -/
theorem lookup_truthy {j : Json} {k : String} {v : Json} (h : j.lookup k = some v) :
    truthy j = true := by
  cases j <;> simp [Json.lookup, truthy] at h ⊢

/-- Lookup distributes over list append. -/
theorem lookupFields_append (xs ys : List (String × Json)) (k : String) :
    lookupFields (xs ++ ys) k
      = match lookupFields xs k with
        | some v => some v
        | none => lookupFields ys k := by
  induction xs with
  | nil => simp [lookupFields]
  | cons p rest ih =>
    obtain ⟨k1, v1⟩ := p
    by_cases h : k1 = k <;> simp [lookupFields, h, ih]

/-- Lookup in the overridden left part of a spread. -/
theorem lookupFields_mapOverride (a b : List (String × Json)) (k : String) :
    lookupFields (a.map (fun p =>
      match lookupFields b p.1 with
      | some v => (p.1, v)
      | none => p)) k
      = match lookupFields a k with
        | none => none
        | some w =>
          match lookupFields b k with
          | some v => some v
          | none => some w := by
  induction a with
  | nil => simp [lookupFields]
  | cons p rest ih =>
    obtain ⟨k1, v1⟩ := p
    by_cases h : k1 = k
    · subst h
      cases hb : lookupFields b k1 <;> simp [lookupFields, hb]
    · cases hb : lookupFields b k1 <;> simp [lookupFields, h, hb, ih]

/-- A present key is found by lookup. -/
theorem hasKey_iff_lookup (m : List (String × Json)) (k : String) :
    hasKey m k = true ↔ (lookupFields m k).isSome := by
  induction m with
  | nil => simp [hasKey, lookupFields]
  | cons p rest ih =>
    obtain ⟨k1, v1⟩ := p
    by_cases h : k1 = k
    · simp [hasKey, lookupFields, h]
    · simp only [hasKey, lookupFields, h] at ih ⊢
      simpa [hasKey, h] using ih

/-- Filtering on other keys preserves lookup when the key survives the
filter everywhere. -/
theorem lookupFields_filter_keep (b a : List (String × Json)) (k : String)
    (h : hasKey a k = false) :
    lookupFields (b.filter (fun q => !hasKey a q.1)) k = lookupFields b k := by
  induction b with
  | nil => simp [lookupFields]
  | cons p rest ih =>
    obtain ⟨k1, v1⟩ := p
    by_cases hk : k1 = k
    · subst hk
      simp [List.filter, h, lookupFields, ih]
    · by_cases hd : hasKey a k1 <;> simp [List.filter, hd, lookupFields, hk, ih]

/-- Filtering away a key removed by the left part of a spread. -/
theorem lookupFields_filter_drop (b a : List (String × Json)) (k : String)
    (h : hasKey a k = true) :
    lookupFields (b.filter (fun q => !hasKey a q.1)) k = none := by
  induction b with
  | nil => simp [lookupFields]
  | cons p rest ih =>
    obtain ⟨k1, v1⟩ := p
    by_cases hk : k1 = k
    · subst hk
      simp [List.filter, h, ih]
    · by_cases hd : hasKey a k1 <;> simp [List.filter, hd, lookupFields, hk, ih]

/-- Lookup after an object spread: the right object wins, else the left. -/
theorem lookupFields_spreadFields (a b : List (String × Json)) (k : String) :
    lookupFields (spreadFields a b) k
      = match lookupFields b k with
        | some v => some v
        | none => lookupFields a k := by
  unfold spreadFields
  rw [lookupFields_append, lookupFields_mapOverride]
  cases ha : lookupFields a k with
  | some w => cases hb : lookupFields b k <;> simp
  | none =>
    have hhk : hasKey a k = false := by
      rcases h : hasKey a k with _ | _
      · rfl
      · exact absurd ((hasKey_iff_lookup a k).mp h) (by simp [ha])
    rw [lookupFields_filter_keep b a k hhk]
    cases hb : lookupFields b k <;> simp

/-- Lookup after overriding every pair holding a key. -/
theorem lookupFields_mapOther (m : List (String × Json)) (k k2 : String) (v : Json)
    (h : k2 ≠ k) :
    lookupFields (m.map (fun p => if p.1 = k then (k, v) else p)) k2 = lookupFields m k2 := by
  induction m with
  | nil => simp [lookupFields]
  | cons p rest ih =>
    obtain ⟨k1, v1⟩ := p
    simp only [List.map_cons]
    by_cases hk : k1 = k
    · subst hk
      rw [if_pos rfl]
      simp [lookupFields, Ne.symm h, ih]
    · rw [if_neg hk]
      by_cases hk2 : k1 = k2
      · subst hk2
        simp [lookupFields]
      · simp [lookupFields, hk2, ih]

/-- Lookup of a key that the override map replaces. -/
theorem lookupFields_setAll (m : List (String × Json)) (k : String) (v : Json)
    (h : hasKey m k = true) :
    lookupFields (m.map (fun p => if p.1 = k then (k, v) else p)) k = some v := by
  induction m with
  | nil => simp [hasKey] at h
  | cons p rest ih =>
    obtain ⟨k1, v1⟩ := p
    simp only [List.map_cons]
    by_cases hk : k1 = k
    · subst hk
      rw [if_pos rfl]
      simp [lookupFields]
    · rw [if_neg hk]
      have hr : hasKey rest k = true := by
        simpa [hasKey, hk] using h
      simp [lookupFields, hk, ih hr]

/-- Lookup of the key just set by `mapSet`. -/
theorem lookupFields_mapSet_self (m : List (String × Json)) (k : String) (v : Json) :
    lookupFields (mapSet m k v) k = some v := by
  unfold mapSet
  by_cases h : hasKey m k
  · rw [if_pos h]
    exact lookupFields_setAll m k v h
  · rw [if_neg h]
    rw [lookupFields_append]
    have hl : lookupFields m k = none := by
      rcases hl : lookupFields m k with _ | w
      · rfl
      · exact absurd ((hasKey_iff_lookup m k).mpr (by simp [hl])) h
    simp [hl, lookupFields]

/-- Lookup of a different key is unchanged by `mapSet`. -/
theorem lookupFields_mapSet_ne (m : List (String × Json)) (k k2 : String) (v : Json)
    (h : k2 ≠ k) :
    lookupFields (mapSet m k v) k2 = lookupFields m k2 := by
  unfold mapSet
  by_cases hm : hasKey m k
  · rw [if_pos hm]
    exact lookupFields_mapOther m k k2 v h
  · rw [if_neg hm]
    rw [lookupFields_append]
    cases hl : lookupFields m k2 <;> simp [lookupFields, Ne.symm h]

/-! Claim theorems. -/

/-- C10: for every path-bearing operation whose `path` field is the empty
string, `validatePatch` reports the operation-shape error that the
operation must have a `path` property (the empty string is falsy in
JavaScript) and marks the batch invalid — even though the empty pointer
denotes the document root and `isValidPointer("", schema)` is true for
every schema. Stated for all six operation kinds, all fuels and all
schemas. -/
theorem c10_empty_path_shape_error (fuel : Nat) (schema : Json) :
    validateJSONPatch fuel
        (.arr [.obj [("op", .str "add"), ("path", .str ""), ("value", .num 1)]]) schema
      = some (false, [(0, "Add operation must have a \"path\" property")])
    ∧ validateJSONPatch fuel
        (.arr [.obj [("op", .str "remove"), ("path", .str "")]]) schema
      = some (false, [(0, "Remove operation must have a \"path\" property")])
    ∧ validateJSONPatch fuel
        (.arr [.obj [("op", .str "replace"), ("path", .str ""), ("value", .num 1)]]) schema
      = some (false, [(0, "Replace operation must have a \"path\" property")])
    ∧ validateJSONPatch fuel
        (.arr [.obj [("op", .str "move"), ("from", .str "/a"), ("path", .str "")]]) schema
      = some (false, [(0, "Move operation must have a \"path\" property")])
    ∧ validateJSONPatch fuel
        (.arr [.obj [("op", .str "copy"), ("from", .str "/a"), ("path", .str "")]]) schema
      = some (false, [(0, "Copy operation must have a \"path\" property")])
    ∧ validateJSONPatch fuel
        (.arr [.obj [("op", .str "test"), ("path", .str ""), ("value", .num 1)]]) schema
      = some (false, [(0, "Test operation must have a \"path\" property")])
    ∧ validateJSONPointer fuel "" schema = some true :=
  ⟨rfl, rfl, rfl, rfl, rfl, rfl, rfl⟩

/-- C1: the claim (and the spec's own test) says that removing a
root-level required property must yield a required-property-removal
error; the code skips the check for every top-level path because
`checkRequiredProperty` returns early when `lastIndexOf("/") <= 0`,
leaving its own `lastSlash === 0` parent-path arm unreachable. At the
failing input — `required: ["name"]`, `remove /name` — the batch
validates with no errors; the protection fires only at depth two or
more. -/
theorem c1_required_protection_skips_root :
    validateJSONPatch 6
        (.arr [.obj [("op", .str "remove"), ("path", .str "/name")]])
        (.obj [("type", .str "object"),
          ("properties", .obj [("name", .obj [("type", .str "string")])]),
          ("required", .arr [.str "name"])])
      = some (true, [])
    ∧ checkRequiredProperty 6 "/name"
        (.obj [("type", .str "object"),
          ("properties", .obj [("name", .obj [("type", .str "string")])]),
          ("required", .arr [.str "name"])])
      = some none
    ∧ validateJSONPatch 8
        (.arr [.obj [("op", .str "remove"), ("path", .str "/a/name")]])
        (.obj [("type", .str "object"),
          ("properties", .obj [("a", .obj [("type", .str "object"),
            ("properties", .obj [("name", .obj [("type", .str "string")])]),
            ("required", .arr [.str "name"])])])])
      = some (false, [(0, "Cannot remove required property \"name\"")]) :=
  ⟨rfl, rfl, rfl⟩

/-- C2: the claim (and the spec's test) says a move whose destination
lies inside the source subtree (`from: /a`, `path: /a/b`) is rejected
with one error for every schema; the code instead tests
`from.startsWith(path + "/")`, which fires only when the source is a
child of the destination, contradicting its own error message "Cannot
move to a location that is a child of the source". At the failing input
the batch validates with no errors, while the reversed operation — a
legal move per RFC 6902 — is the one rejected. -/
theorem c2_move_descendant_check_inverted :
    validateJSONPatch 8
        (.arr [.obj [("op", .str "move"), ("from", .str "/a"), ("path", .str "/a/b")]])
        (.obj [])
      = some (true, [])
    ∧ validateJSONPatch 8
        (.arr [.obj [("op", .str "move"), ("from", .str "/a/b"), ("path", .str "/a")]])
        (.obj [])
      = some (false, [(0, "Cannot move to a location that is a child of the source")]) :=
  ⟨rfl, rfl⟩

/-- C4 counterexample: merging `{type: "string"}` with `{type: "number"}`
during `allOf` folding has an empty type intersection, and the claim says
the merge result then carries no `type` keyword at all; in the code the
right-hand operand's `type` survives through the object spread. -/
theorem c4_empty_intersection_keeps_right_type :
    (mergeSchemas (.obj [("type", .str "string")]) (.obj [("type", .str "number")])).lookup "type"
      = some (.str "number") :=
  rfl

/-- C7 counterexample: the claim quantifies over every schema with
`additionalProperties: false` and `properties: {"a": ...}` (only
`patternProperties`, `propertyNames` and `dependentSchemas` excluded),
but a schema in that family carrying `const` blocks all traversal, so
`/a` is invalid rather than valid. -/
theorem c7_const_blocks_traversal :
    validateJSONPointer 5 "/a"
        (.obj [("const", .num 0), ("properties", .obj [("a", .obj [])]),
          ("additionalProperties", .bool false)])
      = some false :=
  rfl

/-- C9: `validatePatch` validates each operation independently in order
and accumulates errors across the batch (a cons law: the errors of an
operation are prepended to the errors of its sibling suffix, so one
operation's errors never suppress its siblings), the result is valid
exactly when the error list is empty, the concrete 3-operation batch with
operations 0 and 2 invalid yields exactly the two errors indexed 0 and 2
with `valid: false`, and every non-array input yields the single
batch-level error at index `-1`. -/
theorem c9_batch_error_accumulation :
    (∀ (fuel : Nat) (schema a : Json) (rest : List Json) (i : Int)
        (errsA errsRest : List (Int × String)),
      validateOperation fuel a schema i = some errsA →
      validateOpsList fuel rest (i + 1) schema = some errsRest →
      validateOpsList fuel (a :: rest) i schema = some (errsA ++ errsRest))
    ∧ (∀ (fuel : Nat) (patch schema : Json) (v : Bool) (errs : List (Int × String)),
        validateJSONPatch fuel patch schema = some (v, errs) → (v = true ↔ errs = []))
    ∧ validateJSONPatch 5
        (.arr [.obj [("op", .str "remove")],
          .obj [("op", .str "add"), ("path", .str "/x"), ("value", .num 1)],
          .obj [("op", .str "bogus")]])
        (.obj [])
      = some (false, [(0, "Remove operation must have a \"path\" property"),
          (2, "Invalid operation \"bogus\". Must be one of: add, remove, replace, move, copy, test")])
    ∧ (∀ (fuel : Nat) (schema npatch : Json), (∀ l, npatch ≠ .arr l) →
        validateJSONPatch fuel npatch schema
          = some (false, [(-1, "Patch must be an array")])) := by
  refine ⟨?_, ?_, rfl, ?_⟩
  · intro fuel schema a rest i errsA errsRest h1 h2
    simp [validateOpsList, h1, h2]
  · intro fuel patch schema v errs h
    cases patch with
    | arr ops =>
      simp only [validateJSONPatch] at h
      cases hv : validateOpsList fuel ops 0 schema with
      | none => rw [hv] at h; exact absurd h (by simp)
      | some errs2 =>
        rw [hv] at h
        simp only [Option.some.injEq, Prod.mk.injEq] at h
        obtain ⟨hve, hee⟩ := h
        subst hee hve
        simp [List.isEmpty_iff]
    | null => simp only [validateJSONPatch, Option.some.injEq, Prod.mk.injEq] at h
              obtain ⟨hv, he⟩ := h
              subst hv he
              simp
    | bool b => simp only [validateJSONPatch, Option.some.injEq, Prod.mk.injEq] at h
                obtain ⟨hv, he⟩ := h
                subst hv he
                simp
    | num n => simp only [validateJSONPatch, Option.some.injEq, Prod.mk.injEq] at h
               obtain ⟨hv, he⟩ := h
               subst hv he
               simp
    | str s => simp only [validateJSONPatch, Option.some.injEq, Prod.mk.injEq] at h
               obtain ⟨hv, he⟩ := h
               subst hv he
               simp
    | obj fields => simp only [validateJSONPatch, Option.some.injEq, Prod.mk.injEq] at h
                    obtain ⟨hv, he⟩ := h
                    subst hv he
                    simp
  · intro fuel schema npatch h
    cases npatch with
    | arr l => exact absurd rfl (h l)
    | null => rfl
    | bool b => rfl
    | num n => rfl
    | str s => rfl
    | obj fields => rfl

/-- Witness for C9: the cons law applied to a one-operation batch with a
concrete invalid operation and an empty suffix, and the batch-level error
applied to a concrete non-array input. -/
theorem c9_batch_error_accumulation_witness :
    validateOpsList 1 [Json.obj [("op", Json.str "remove")]] 0 (.obj [])
      = some ([(0, "Remove operation must have a \"path\" property")] ++ [])
    ∧ validateJSONPatch 1 (.str "x") (.obj [])
      = some (false, [(-1, "Patch must be an array")]) :=
  ⟨c9_batch_error_accumulation.1 1 (.obj []) (Json.obj [("op", Json.str "remove")]) [] 0
      [(0, "Remove operation must have a \"path\" property")] [] rfl rfl,
   c9_batch_error_accumulation.2.2.2 1 (.obj []) (.str "x")
      (fun _l hl => Json.noConfusion hl)⟩

/-- C3 counterexample: the claim says the reference string is removed
from the cycle-guard set by the time the resolve call returns whether or
not a target was found; resolving `#/$defs/T` against a schema where the
target exists succeeds, yet the returned guard set still contains the
reference string. -/
theorem c3_guard_entry_survives_success :
    resolveRef 5 "#/$defs/T"
        ⟨.obj [("$defs", .obj [("T", .obj [("type", .str "string")])])], [], [], []⟩
        (.obj [])
      = some (.obj [("type", .str "string")], ["#/$defs/T"])
    ∧ setHas ["#/$defs/T"] "#/$defs/T" = true :=
  ⟨rfl, rfl⟩

/-- A string starting with `#/` contains a slash. -/
theorem strContains_slash_of_hashSlash (ref : String) (h : strStartsWith ref "#/" = true) :
    strContains ref "/" = true := by
  unfold strStartsWith at h
  unfold strContains containsSubAux
  cases hcs : ref.toList with
  | nil => rw [hcs] at h; simp [startsWithList] at h
  | cons c rest =>
    cases rest with
    | nil => rw [hcs] at h; simp [startsWithList] at h
    | cons d rest2 =>
      rw [hcs] at h
      simp only [startsWithList, Bool.and_eq_true, beq_iff_eq] at h
      obtain ⟨hc, hd, _⟩ := h
      subst hc hd
      simp [startsWithList, containsSubAux]

/-- Starting with a concatenation implies starting with its first part. -/
theorem startsWithList_mono (p q cs : List Char)
    (h : startsWithList cs (p ++ q) = true) : startsWithList cs p = true := by
  induction p generalizing cs with
  | nil => simp [startsWithList]
  | cons a p2 ih =>
    cases cs with
    | nil => simp [startsWithList] at h
    | cons c cs2 =>
      simp only [List.cons_append, startsWithList, Bool.and_eq_true] at h ⊢
      exact ⟨h.1, ih cs2 h.2⟩

/-- A string starting with `#/` starts with `#`. -/
theorem strStartsWith_hash_of_hashSlash (ref : String) (h : strStartsWith ref "#/" = true) :
    strStartsWith ref "#" = true := by
  unfold strStartsWith at h ⊢
  have hsplit : "#/".toList = "#".toList ++ "/".toList := rfl
  rw [hsplit] at h
  exact startsWithList_mono _ _ _ h

/-- C3 amended: the guard set is checked before resolution and a hit
returns `{}` with the set unchanged; on a miss the string is added and,
when the in-document pointer walk finds a (truthy, object-typed) target,
the recursive resolution result is returned with the string still in the
guard set — it is removed again only on the fallthrough path where no
target is found for a fragment (or scheme-qualified) reference, while a
failed non-fragment reference also leaves it in place. -/
theorem c3_cycle_guard_discipline :
    (∀ (fuel : Nat) (ref : String) (ctx : SchemaContext) (cur : Json),
      setHas ctx.visited ref = true →
      resolveRef (fuel + 1) ref ctx cur = some (.obj [], ctx.visited))
    ∧ (∀ (fuel : Nat) (ref : String) (ctx : SchemaContext) (cur target : Json),
        setHas ctx.visited ref = false →
        strStartsWith ref "#/" = true →
        jsWalk (some ctx.root) (splitOnSlash (ref.drop 2)) = some target →
        truthy target = true → typeofObject target = true →
        resolveRef (fuel + 1) ref ctx cur
          = resolveSchema fuel target { ctx with visited := ctx.visited ++ [ref] })
    ∧ resolveRef 5 "#/missing" ⟨.obj [], [], [], []⟩ (.obj []) = some (.obj [], [])
    ∧ resolveRef 5 "relative" ⟨.obj [], [], [], []⟩ (.obj [])
      = some (.obj [], ["relative"]) := by
  refine ⟨?_, ?_, rfl, rfl⟩
  · intro fuel ref ctx cur h
    simp [resolveRef, h]
  · intro fuel ref ctx cur target hmiss hhs hwalk htr hobj
    have hsl : strContains ref "/" = true := strContains_slash_of_hashSlash ref hhs
    have hnm : ref ∉ ctx.visited := by
      unfold setHas at hmiss
      simpa using hmiss
    have hadd : setAdd ctx.visited ref = ctx.visited ++ [ref] := by
      unfold setAdd
      unfold setHas at hmiss
      simp [hmiss, hnm]
    simp [resolveRef, hmiss, hnm, hsl, hhs, hwalk, htr, hobj, hadd, setHas]

/-- Witness for C3 amended: the guard-hit branch applied at a concrete
reference already in the guard set, and the success pass-through applied
at a concrete in-document reference. -/
theorem c3_cycle_guard_discipline_witness :
    resolveRef 1 "r" ⟨.obj [], [], ["r"], []⟩ (.obj []) = some (.obj [], ["r"])
    ∧ resolveRef 3 "#/a" ⟨.obj [("a", .obj [("x", .num 1)])], [], [], []⟩ (.obj [])
      = resolveSchema 2 (.obj [("x", .num 1)])
          ⟨.obj [("a", .obj [("x", .num 1)])], [], [] ++ ["#/a"], []⟩ :=
  ⟨c3_cycle_guard_discipline.1 0 "r" ⟨.obj [], [], ["r"], []⟩ (.obj []) rfl,
   c3_cycle_guard_discipline.2.1 2 "#/a" ⟨.obj [("a", .obj [("x", .num 1)])], [], [], []⟩
      (.obj []) (.obj [("x", .num 1)]) rfl rfl rfl rfl rfl⟩

/-- Merge steps for `properties`/`patternProperties` leave other keys
unchanged. -/
theorem lookupFields_mergePropsStep_ne (s1 s2 : Json) (key : String)
    (m : List (String × Json)) (k : String) (h : k ≠ key) :
    lookupFields (mergePropsStep s1 s2 key m) k = lookupFields m k := by
  unfold mergePropsStep
  by_cases hc : truthyOpt (s1.lookup key) || truthyOpt (s2.lookup key)
  · simp only [hc, if_true]
    exact lookupFields_mapSet_ne m key k _ h
  · simp [hc]

/-- The `required` merge step leaves other keys unchanged. -/
theorem lookupFields_mergeRequiredStep_ne (s1 s2 : Json)
    (m : List (String × Json)) (k : String) (h : k ≠ "required") :
    lookupFields (mergeRequiredStep s1 s2 m) k = lookupFields m k := by
  unfold mergeRequiredStep
  by_cases hc : truthyOpt (s1.lookup "required") || truthyOpt (s2.lookup "required")
  · simp only [hc, if_true]
    exact lookupFields_mapSet_ne m "required" k _ h
  · simp [hc]

/-- The `minProperties` merge step leaves other keys unchanged. -/
theorem lookupFields_mergeMinPropsStep_ne (s1 s2 : Json)
    (m : List (String × Json)) (k : String) (h : k ≠ "minProperties") :
    lookupFields (mergeMinPropsStep s1 s2 m) k = lookupFields m k := by
  unfold mergeMinPropsStep
  by_cases hc : (s1.lookup "minProperties").isSome || (s2.lookup "minProperties").isSome
  · simp only [hc, if_true]
    exact lookupFields_mapSet_ne m "minProperties" k _ h
  · simp [hc]

/-- The `maxProperties` merge step leaves other keys unchanged. -/
theorem lookupFields_mergeMaxPropsStep_ne (s1 s2 : Json)
    (m : List (String × Json)) (k : String) (h : k ≠ "maxProperties") :
    lookupFields (mergeMaxPropsStep s1 s2 m) k = lookupFields m k := by
  unfold mergeMaxPropsStep
  by_cases hc : (s1.lookup "maxProperties").isSome || (s2.lookup "maxProperties").isSome
  · simp only [hc, if_true]
    cases numOpt s1 "maxProperties" <;> cases numOpt s2 "maxProperties" <;>
      simp [lookupFields_mapSet_ne m "maxProperties" k _ h]
  · simp [hc]

/-- Lookup through the spread of two JSON values. -/
theorem lookup_objFields (j : Json) (k : String) :
    lookupFields (objFields j) k = j.lookup k := by
  cases j <;> simp [objFields, Json.lookup, lookupFields]

/-- C4 amended: in the `allOf` schema merge, when both operands declare a
truthy `type`, a non-empty intersection of their type lists becomes the
merged `type` (unwrapped when a singleton); when the intersection is
empty, the `type` keyword is not omitted — the right-hand operand's
`type` survives via the object spread. -/
theorem c4_type_intersection_merge (s1 s2 t1 t2 : Json)
    (h1 : s1.lookup "type" = some t1) (h2 : s2.lookup "type" = some t2)
    (ht1 : truthy t1 = true) (ht2 : truthy t2 = true) :
    (((typeList t1).filter (fun t => (typeList t2).contains t)) = [] →
      (mergeSchemas s1 s2).lookup "type" = some t2)
    ∧ (∀ c : Json, ((typeList t1).filter (fun t => (typeList t2).contains t)) = [c] →
        (mergeSchemas s1 s2).lookup "type" = some c)
    ∧ (∀ (c d : Json) (cs : List Json),
        ((typeList t1).filter (fun t => (typeList t2).contains t)) = c :: d :: cs →
        (mergeSchemas s1 s2).lookup "type" = some (.arr (c :: d :: cs))) := by
  have hbase : ∀ m : List (String × Json),
      lookupFields (mergeRequiredStep s1 s2 (mergePropsStep s1 s2 "patternProperties"
        (mergePropsStep s1 s2 "properties" m))) "type" = lookupFields m "type" := by
    intro m
    rw [lookupFields_mergeRequiredStep_ne s1 s2 _ "type" (by decide),
      lookupFields_mergePropsStep_ne s1 s2 "patternProperties" _ "type" (by decide),
      lookupFields_mergePropsStep_ne s1 s2 "properties" _ "type" (by decide)]
  have htail : ∀ m : List (String × Json),
      lookupFields (mergeMaxPropsStep s1 s2 (mergeMinPropsStep s1 s2 m)) "type"
        = lookupFields m "type" := by
    intro m
    rw [lookupFields_mergeMaxPropsStep_ne s1 s2 _ "type" (by decide),
      lookupFields_mergeMinPropsStep_ne s1 s2 _ "type" (by decide)]
  refine ⟨?_, ?_, ?_⟩
  · intro hempty
    simp only [mergeSchemas, Json.lookup]
    rw [htail]
    unfold mergeTypeStep
    rw [h1, h2]
    simp only [ht1, ht2, Bool.and_self, if_true, hempty]
    rw [hbase, lookupFields_spreadFields, lookup_objFields, lookup_objFields, h2]
  · intro c hone
    simp only [mergeSchemas, Json.lookup]
    rw [htail]
    unfold mergeTypeStep
    rw [h1, h2]
    simp only [ht1, ht2, Bool.and_self, if_true, hone]
    exact lookupFields_mapSet_self _ "type" c
  · intro c d cs hmany
    simp only [mergeSchemas, Json.lookup]
    rw [htail]
    unfold mergeTypeStep
    rw [h1, h2]
    simp only [ht1, ht2, Bool.and_self, if_true, hmany]
    exact lookupFields_mapSet_self _ "type" (.arr (c :: d :: cs))

/-- Witness for C4 amended: empty intersection of `string` and `number`
keeps the right-hand `type`; the singleton intersection of
`["string", "number"]` with `number` becomes the unwrapped `number`. -/
theorem c4_type_intersection_merge_witness :
    (mergeSchemas (.obj [("type", .str "string")]) (.obj [("type", .str "number")])).lookup "type"
      = some (.str "number")
    ∧ (mergeSchemas (.obj [("type", .arr [.str "string", .str "number"])])
        (.obj [("type", .str "number")])).lookup "type"
      = some (.str "number") :=
  ⟨(c4_type_intersection_merge (.obj [("type", .str "string")]) (.obj [("type", .str "number")])
      (.str "string") (.str "number") rfl rfl rfl rfl).1 rfl,
   (c4_type_intersection_merge (.obj [("type", .arr [.str "string", .str "number"])])
      (.obj [("type", .str "number")])
      (.arr [.str "string", .str "number"]) (.str "number") rfl rfl rfl rfl).2.1
      (.str "number") rfl⟩

/-- C5: for every schema in which the in-document walk of `#/$defs/A`
reaches a node whose `$ref` is the self-reference `#/$defs/A`, resolving
that node terminates (under any guard-set state arising at any traversal
step, with any sufficient fuel) and yields the permissive empty schema
`{}`: the cycle guard cuts the recursion at the second visit. -/
theorem c5_self_reference_resolves_to_empty
    (fuel : Nat) (root : Json) (defs anchors : List (String × Json))
    (v : List String) (node : Json)
    (hwalk : jsWalk (some root) ["$defs", "A"] = some node)
    (htr : truthy node = true) (hobj : typeofObject node = true)
    (href : node.lookup "$ref" = some (.str "#/$defs/A")) :
    ∃ v2, resolveSchema (fuel + 4) node ⟨root, defs, v, anchors⟩ = some (.obj [], v2) := by
  have hstr : strKey node "$ref" = some "#/$defs/A" := by
    simp [strKey, href]
  have hsegs : splitOnSlash ("#/$defs/A".drop 2) = ["$defs", "A"] := rfl
  by_cases hmem : setHas v "#/$defs/A" = true
  · refine ⟨v, ?_⟩
    show resolveSchema (fuel + 3 + 1) node ⟨root, defs, v, anchors⟩ = some (.obj [], v)
    simp only [resolveSchema, hstr]
    show resolveRef (fuel + 2 + 1) "#/$defs/A" ⟨root, defs, v, anchors⟩ node = _
    simp only [resolveRef, hmem, if_true]
  · have hmem' : setHas v "#/$defs/A" = false := by
      simpa using hmem
    have hnm : "#/$defs/A" ∉ v := by
      unfold setHas at hmem'
      simpa using hmem'
    have hadd : setAdd v "#/$defs/A" = v ++ ["#/$defs/A"] := by
      unfold setAdd
      unfold setHas at hmem'
      simp [hmem', hnm]
    have hmem2 : setHas (v ++ ["#/$defs/A"]) "#/$defs/A" = true := by
      simp [setHas]
    refine ⟨v ++ ["#/$defs/A"], ?_⟩
    show resolveSchema (fuel + 3 + 1) node ⟨root, defs, v, anchors⟩ = _
    simp only [resolveSchema, hstr]
    show resolveRef (fuel + 2 + 1) "#/$defs/A" ⟨root, defs, v, anchors⟩ node = _
    simp only [resolveRef, hmem', hnm, hadd, hsegs, hwalk, htr, hobj,
      show strContains "#/$defs/A" "/" = true from rfl,
      show strStartsWith "#/$defs/A" "#/" = true from rfl,
      Bool.false_eq_true, if_false, Bool.and_true, Bool.true_and]
    show resolveSchema (fuel + 1 + 1) node
        ⟨root, defs, v ++ ["#/$defs/A"], anchors⟩ = _
    simp only [resolveSchema, hstr]
    show resolveRef (fuel + 0 + 1) "#/$defs/A"
        ⟨root, defs, v ++ ["#/$defs/A"], anchors⟩ node = _
    simp only [resolveRef, hmem2, if_true]

/-- Witness for C5: the concrete self-referential schema
`{$defs: {A: {$ref: "#/$defs/A"}}}` resolves its `$defs/A` node to `{}`
starting from an empty guard set. -/
theorem c5_self_reference_resolves_to_empty_witness :
    ∃ v2, resolveSchema 4 (.obj [("$ref", .str "#/$defs/A")])
        ⟨.obj [("$defs", .obj [("A", .obj [("$ref", .str "#/$defs/A")])])], [], [], []⟩
      = some (.obj [], v2) :=
  c5_self_reference_resolves_to_empty 0
    (.obj [("$defs", .obj [("A", .obj [("$ref", .str "#/$defs/A")])])]) [] [] []
    (.obj [("$ref", .str "#/$defs/A")]) rfl rfl rfl rfl

/-- C6: a schema node with no reference keyword and no `allOf` that
carries a non-empty `anyOf` resolves to the recursive resolution of the
first `anyOf` branch only; failing a non-empty `anyOf`, a non-empty
`oneOf` resolves to the recursive resolution of its first branch — the
remaining branches and the node's own sibling keywords do not contribute. -/
theorem c6_first_branch_resolution (fuel : Nat) (s : Json) (ctx : SchemaContext)
    (h1 : s.lookup "$ref" = none) (h2 : s.lookup "$dynamicRef" = none)
    (h3 : s.lookup "allOf" = none) :
    (∀ (b : Json) (rest : List Json), s.lookup "anyOf" = some (.arr (b :: rest)) →
      resolveSchema (fuel + 1) s ctx = resolveSchema fuel b ctx)
    ∧ (∀ (c : Json) (rest2 : List Json),
        (s.lookup "anyOf" = none ∨ s.lookup "anyOf" = some (.arr [])) →
        s.lookup "oneOf" = some (.arr (c :: rest2)) →
        resolveSchema (fuel + 1) s ctx = resolveSchema fuel c ctx) := by
  have hstr1 : strKey s "$ref" = none := by simp [strKey, h1]
  have hstr2 : strKey s "$dynamicRef" = none := by simp [strKey, h2]
  constructor
  · intro b rest hany
    simp only [resolveSchema, hstr1, hstr2, h3, hany]
  · intro c rest2 hany hone
    rcases hany with hany | hany <;>
      simp only [resolveSchema, hstr1, hstr2, h3, hany, hone]

/-- Witness for C6: a node carrying only a non-empty `anyOf` resolves to
its first branch, and a node carrying only a non-empty `oneOf` resolves
to its first branch (evaluated at fuel 1 against a trivial context). -/
theorem c6_first_branch_resolution_witness :
    resolveSchema 2 (.obj [("anyOf", .arr [.obj [("type", .str "string")], .obj []])])
        ⟨.obj [], [], [], []⟩
      = resolveSchema 1 (.obj [("type", .str "string")]) ⟨.obj [], [], [], []⟩
    ∧ resolveSchema 2 (.obj [("oneOf", .arr [.obj [("type", .str "number")]])])
        ⟨.obj [], [], [], []⟩
      = resolveSchema 1 (.obj [("type", .str "number")]) ⟨.obj [], [], [], []⟩ :=
  ⟨(c6_first_branch_resolution 1
      (.obj [("anyOf", .arr [.obj [("type", .str "string")], .obj []])])
      ⟨.obj [], [], [], []⟩ rfl rfl rfl).1
      (.obj [("type", .str "string")]) [.obj []] rfl,
   (c6_first_branch_resolution 1
      (.obj [("oneOf", .arr [.obj [("type", .str "number")]])])
      ⟨.obj [], [], [], []⟩ rfl rfl rfl).2
      (.obj [("type", .str "number")]) [] (Or.inl rfl) rfl⟩

/-- Resolution of a node with no reference, composition or conditional
keyword returns the node unchanged with the guard set untouched. -/
theorem resolveSchema_plain (fuel : Nat) (s : Json) (ctx : SchemaContext)
    (h1 : s.lookup "$ref" = none) (h2 : s.lookup "$dynamicRef" = none)
    (h3 : s.lookup "allOf" = none) (h4 : s.lookup "anyOf" = none)
    (h5 : s.lookup "oneOf" = none) (h6 : s.lookup "not" = none)
    (h7 : s.lookup "if" = none) :
    resolveSchema (fuel + 1) s ctx = some (s, ctx.visited) := by
  have hstr1 : strKey s "$ref" = none := by simp [strKey, h1]
  have hstr2 : strKey s "$dynamicRef" = none := by simp [strKey, h2]
  simp only [resolveSchema, hstr1, hstr2, h3, h4, h5, h6, h7, truthyOpt]
  simp

/-- Traversal step into a declared property: with `properties` containing
the token and a truthy subschema, `getNextSchema` yields it. -/
theorem gns_fence_a (fuel : Nat) (schema aSchema : Json) (ctx : SchemaContext)
    (hprops : schema.lookup "properties" = some (.obj [("a", aSchema)]))
    (htr : truthy aSchema = true) :
    getNextSchema (fuel + 1 + 1) "a" schema ctx = some (some aSchema, ctx.visited) := by
  have hobjApp : (typeIncludes (schema.lookup "type") "object"
      || truthyOpt (schema.lookup "properties")
      || truthyOpt (schema.lookup "patternProperties")
      || !truthyOpt (schema.lookup "type")) = true := by
    rw [hprops]
    simp [truthyOpt, truthy]
  simp only [getNextSchema]
  rw [hobjApp]
  simp only [if_true, tryObjectTraversal, hprops, lookupFields]
  simp [truthyOpt, htr]

/-- C8: for every array schema (`type: "array"`, no `properties` or
`patternProperties`) with `prefixItems` of length N, no `items` and
`maxItems` unset, the canonical token for index N-1 is valid and yields
the positional schema, the token for index N is valid and yields the
fallback `{}`; with `items: false` alongside the same `prefixItems`, the
token for index N is invalid. Tokens are characterised as the canonical
decimal strings of their indices (`parseInt` round-trip). -/
theorem c8_prefix_items_bounds (fuel : Nat) (ctx : SchemaContext) (s : Json)
    (ps : List Json) (N : Nat) (tokA tokB : String)
    (hty : s.lookup "type" = some (.str "array"))
    (hpre : s.lookup "prefixItems" = some (.arr ps))
    (hlen : ps.length = N) (hpos : 0 < N)
    (hprops : s.lookup "properties" = none)
    (hpat : s.lookup "patternProperties" = none)
    (hmax : s.lookup "maxItems" = none)
    (hparseA : jsParseInt tokA = some ((N : Int) - 1))
    (hstrA : toString ((N : Int) - 1) = tokA)
    (hparseB : jsParseInt tokB = some (N : Int))
    (hstrB : toString (N : Int) = tokB)
    (htr : truthyOpt ps[N - 1]? = true) :
    (s.lookup "items" = none →
      getNextSchema (fuel + 1) tokA s ctx = some (ps[N - 1]?, ctx.visited)
      ∧ getNextSchema (fuel + 1) tokB s ctx = some (some (.obj []), ctx.visited))
    ∧ (s.lookup "items" = some (.bool false) →
      getNextSchema (fuel + 1) tokB s ctx = some (none, ctx.visited)) := by
  have hobjApp : (typeIncludes (s.lookup "type") "object"
      || truthyOpt (s.lookup "properties")
      || truthyOpt (s.lookup "patternProperties")
      || !truthyOpt (s.lookup "type")) = false := by
    rw [hty, hprops, hpat]
    simp [truthyOpt, truthy, typeIncludes,
      show (Json.str "array" == Json.str "object") = false from rfl]
  have harrApp : (typeIncludes (s.lookup "type") "array"
      || truthyOpt (s.lookup "items")
      || truthyOpt (s.lookup "prefixItems")) = true := by
    rw [hty]
    simp [typeIncludes, show (Json.str "array" == Json.str "array") = true from rfl]
  have hgeA : ¬((N : Int) - 1 < 0) := by omega
  have hltA : (N : Int) - 1 < (ps.length : Int) := by
    rw [hlen]; omega
  have htoNatA : ((N : Int) - 1).toNat = N - 1 := by omega
  have hgeB : ¬((N : Int) < 0) := by omega
  have hnltB : ¬((N : Int) < (ps.length : Int)) := by
    rw [hlen]; omega
  constructor
  · intro hitems
    have harrA : tryArrayTraversal tokA s = ps[N - 1]? := by
      simp [tryArrayTraversal, hparseA, hstrA, hgeA, hmax, hpre, hltA, htoNatA]
    have harrB : tryArrayTraversal tokB s = some (.obj []) := by
      simp [tryArrayTraversal, hparseB, hstrB, hgeB, hmax, hpre, hnltB, hitems]
    constructor
    · simp only [getNextSchema]
      rw [hobjApp, harrApp]
      simp [harrA, htr, show truthyOpt (none : Option Json) = false from rfl]
    · simp only [getNextSchema]
      rw [hobjApp, harrApp]
      simp [harrB, show truthyOpt (none : Option Json) = false from rfl,
        show truthyOpt (some (Json.obj [])) = true from rfl]
  · intro hitems
    have harrB : tryArrayTraversal tokB s = none := by
      simp [tryArrayTraversal, hparseB, hstrB, hgeB, hmax, hpre, hnltB, hitems]
    simp only [getNextSchema]
    rw [hobjApp, harrApp]
    simp [harrB, hty, show truthyOpt (none : Option Json) = false from rfl]

/-- Witness for C8: `{type: "array", prefixItems: [{type: "string"}]}`
admits token `0` with the positional schema and token `1` with `{}`; with
`items: false` added, token `1` is rejected. -/
theorem c8_prefix_items_bounds_witness :
    getNextSchema 1 "0"
        (.obj [("type", .str "array"),
          ("prefixItems", .arr [.obj [("type", .str "string")]])])
        ⟨.obj [], [], [], []⟩
      = some (some (.obj [("type", .str "string")]), [])
    ∧ getNextSchema 1 "1"
        (.obj [("type", .str "array"),
          ("prefixItems", .arr [.obj [("type", .str "string")]])])
        ⟨.obj [], [], [], []⟩
      = some (some (.obj []), [])
    ∧ getNextSchema 1 "1"
        (.obj [("type", .str "array"),
          ("prefixItems", .arr [.obj [("type", .str "string")]]),
          ("items", .bool false)])
        ⟨.obj [], [], [], []⟩
      = some (none, []) :=
  ⟨((c8_prefix_items_bounds 0 ⟨.obj [], [], [], []⟩
      (.obj [("type", .str "array"),
        ("prefixItems", .arr [.obj [("type", .str "string")]])])
      [.obj [("type", .str "string")]] 1 "0" "1"
      rfl rfl rfl (by decide) rfl rfl rfl rfl rfl rfl rfl rfl).1 rfl).1,
   ((c8_prefix_items_bounds 0 ⟨.obj [], [], [], []⟩
      (.obj [("type", .str "array"),
        ("prefixItems", .arr [.obj [("type", .str "string")]])])
      [.obj [("type", .str "string")]] 1 "0" "1"
      rfl rfl rfl (by decide) rfl rfl rfl rfl rfl rfl rfl rfl).1 rfl).2,
   (c8_prefix_items_bounds 0 ⟨.obj [], [], [], []⟩
      (.obj [("type", .str "array"),
        ("prefixItems", .arr [.obj [("type", .str "string")]]),
        ("items", .bool false)])
      [.obj [("type", .str "string")]] 1 "0" "1"
      rfl rfl rfl (by decide) rfl rfl rfl rfl rfl rfl rfl rfl).2 rfl⟩

/-- Filtering out one key preserves lookup of every other key. -/
theorem lookupFields_filter_ne (m : List (String × Json)) (k k2 : String) (h : k2 ≠ k) :
    lookupFields (m.filter (fun p => p.1 != k)) k2 = lookupFields m k2 := by
  induction m with
  | nil => simp [lookupFields]
  | cons p rest ih =>
    obtain ⟨k1, v1⟩ := p
    by_cases hk : k1 = k
    · subst hk
      have hb : (k1 != k1) = false := by simp
      simp [List.filter, hb, lookupFields, Ne.symm h, ih]
    · have hb : (k1 != k) = true := by simp [hk]
      by_cases hk2 : k1 = k2
      · subst hk2
        simp [List.filter, hb, lookupFields]
      · simp [List.filter, hb, lookupFields, hk2, ih]

/-- Erasing a key (spread with `undefined`) preserves every other read. -/
theorem lookup_eraseKey_ne (j : Json) (k k2 : String) (h : k2 ≠ k) :
    (eraseKey j k).lookup k2 = j.lookup k2 := by
  show lookupFields ((objFields j).filter (fun p => p.1 != k)) k2 = j.lookup k2
  rw [lookupFields_filter_ne (objFields j) k k2 h, lookup_objFields]

/-- Reading back the key just overridden by a single-key spread. -/
theorem lookup_setKey_self (j : Json) (k : String) (v : Json) :
    (setKey j k v).lookup k = some v := by
  show lookupFields (mapSet (objFields j) k v) k = some v
  exact lookupFields_mapSet_self (objFields j) k v

/-- A single-key spread override preserves every other read. -/
theorem lookup_setKey_ne (j : Json) (k k2 : String) (v : Json) (h : k2 ≠ k) :
    (setKey j k v).lookup k2 = j.lookup k2 := by
  show lookupFields (mapSet (objFields j) k v) k2 = j.lookup k2
  rw [lookupFields_mapSet_ne (objFields j) k k2 v h, lookup_objFields]

/-- Resolution of a node with no reference, composition or conditional
keyword other than possibly `not`: a truthy `not` is stripped, otherwise
the node is returned unchanged; the guard set is untouched. -/
theorem resolveSchema_noRefs (fuel : Nat) (s : Json) (ctx : SchemaContext)
    (h1 : s.lookup "$ref" = none) (h2 : s.lookup "$dynamicRef" = none)
    (h3 : s.lookup "allOf" = none) (h4 : s.lookup "anyOf" = none)
    (h5 : s.lookup "oneOf" = none) (h7 : s.lookup "if" = none) :
    resolveSchema (fuel + 1) s ctx
      = some (if truthyOpt (s.lookup "not") = true then eraseKey s "not" else s,
          ctx.visited) := by
  have hstr1 : strKey s "$ref" = none := by simp [strKey, h1]
  have hstr2 : strKey s "$dynamicRef" = none := by simp [strKey, h2]
  by_cases hn : truthyOpt (s.lookup "not") = true
  · simp only [resolveSchema, hstr1, hstr2, h3, h4, h5, hn, if_true]
  · have hn' : truthyOpt (s.lookup "not") = false := by simpa using hn
    simp only [resolveSchema, hstr1, hstr2, h3, h4, h5, h7, hn',
      show truthyOpt (none : Option Json) = false from rfl]
    simp

/-- Traversal step into an undeclared property under
`additionalProperties: false` (no pattern or name constraints) when the
declared `type` is anything but an array: `getNextSchema` yields the
source's `null`. -/
theorem gns_fence_b_nonarr (fuel : Nat) (schema aSchema : Json) (ctx : SchemaContext)
    (hprops : schema.lookup "properties" = some (.obj [("a", aSchema)]))
    (haddp : schema.lookup "additionalProperties" = some (.bool false))
    (hpat : schema.lookup "patternProperties" = none)
    (hpn : schema.lookup "propertyNames" = none)
    (hnonarr : ∀ l, schema.lookup "type" ≠ some (.arr l)) :
    getNextSchema (fuel + 1 + 1) "b" schema ctx = some (none, ctx.visited) := by
  have hobjApp : (typeIncludes (schema.lookup "type") "object"
      || truthyOpt (schema.lookup "properties")
      || truthyOpt (schema.lookup "patternProperties")
      || !truthyOpt (schema.lookup "type")) = true := by
    rw [hprops]
    simp [truthyOpt, truthy]
  have harrb : tryArrayTraversal "b" schema = none := by
    simp [tryArrayTraversal, show jsParseInt "b" = none from rfl]
  simp only [getNextSchema]
  rw [hobjApp]
  simp only [if_true, tryObjectTraversal, tryObjectTail, hprops, hpat, hpn, haddp,
    truthyOpt, lookupFields, harrb]
  cases hsty : schema.lookup "type" with
  | none => simp
  | some j =>
    cases j with
    | arr l => exact absurd hsty (hnonarr l)
    | null => simp
    | bool b => simp
    | num n => simp
    | str s => simp
    | obj fields => simp

/-- The multi-type retry loop over a list of type strings: every retry
hits the same `additionalProperties: false` fence, so the loop returns
`null` with the guard set unchanged (fuel grows with the list length,
one unit per retried type). -/
theorem tryTypes_fence_strings (fuel : Nat) (schema aSchema : Json)
    (hprops : schema.lookup "properties" = some (.obj [("a", aSchema)]))
    (haddp : schema.lookup "additionalProperties" = some (.bool false))
    (hpat : schema.lookup "patternProperties" = none)
    (hpn : schema.lookup "propertyNames" = none) :
    ∀ (l2 : List Json) (c : SchemaContext), (∀ x ∈ l2, ∃ s, x = .str s) →
      tryTypes (fuel + l2.length + 1 + 1) "b" schema l2 c = some (none, c.visited) := by
  intro l2
  induction l2 with
  | nil =>
    intro c _
    show tryTypes (fuel + [].length + 1 + 1) "b" schema [] c = some (none, c.visited)
    simp [tryTypes]
  | cons t rest ih =>
    intro c hstrs
    obtain ⟨s, rfl⟩ := hstrs t (List.mem_cons_self t rest)
    have hstrs2 : ∀ x ∈ rest, ∃ s2, x = Json.str s2 :=
      fun x hx => hstrs x (List.mem_cons_of_mem _ hx)
    have hpropsS : (setKey schema "type" (Json.str s)).lookup "properties"
        = some (.obj [("a", aSchema)]) := by
      rw [lookup_setKey_ne schema "type" "properties" _ (by decide), hprops]
    have haddpS : (setKey schema "type" (Json.str s)).lookup "additionalProperties"
        = some (.bool false) := by
      rw [lookup_setKey_ne schema "type" "additionalProperties" _ (by decide), haddp]
    have hpatS : (setKey schema "type" (Json.str s)).lookup "patternProperties" = none := by
      rw [lookup_setKey_ne schema "type" "patternProperties" _ (by decide), hpat]
    have hpnS : (setKey schema "type" (Json.str s)).lookup "propertyNames" = none := by
      rw [lookup_setKey_ne schema "type" "propertyNames" _ (by decide), hpn]
    have hnonarrS : ∀ l, (setKey schema "type" (Json.str s)).lookup "type"
        ≠ some (.arr l) := by
      intro l hl
      rw [lookup_setKey_self schema "type" (Json.str s)] at hl
      exact Json.noConfusion (Option.some.inj hl)
    have hginner := gns_fence_b_nonarr (fuel + rest.length) (setKey schema "type" (Json.str s))
      aSchema c hpropsS haddpS hpatS hpnS hnonarrS
    show tryTypes ((fuel + rest.length + 1 + 1) + 1) "b" schema (Json.str s :: rest) c
      = some (none, c.visited)
    simp only [tryTypes, hginner, show truthyOpt (none : Option Json) = false from rfl,
      Bool.false_eq_true, if_false]
    exact ih c hstrs2

/-- Traversal step into an undeclared property under
`additionalProperties: false` when the declared `type` is an array of
type strings: object dispatch, array dispatch and every multi-type retry
all reject, so `getNextSchema` yields the source's `null`. -/
theorem gns_fence_b_arr (fuel : Nat) (schema aSchema : Json) (ctx : SchemaContext)
    (l : List Json)
    (hprops : schema.lookup "properties" = some (.obj [("a", aSchema)]))
    (haddp : schema.lookup "additionalProperties" = some (.bool false))
    (hpat : schema.lookup "patternProperties" = none)
    (hpn : schema.lookup "propertyNames" = none)
    (hsty : schema.lookup "type" = some (.arr l))
    (hstrs : ∀ x ∈ l, ∃ s, x = .str s) :
    getNextSchema (fuel + l.length + 1 + 1 + 1) "b" schema ctx
      = some (none, ctx.visited) := by
  have hobjApp : (typeIncludes (schema.lookup "type") "object"
      || truthyOpt (schema.lookup "properties")
      || truthyOpt (schema.lookup "patternProperties")
      || !truthyOpt (schema.lookup "type")) = true := by
    rw [hprops]
    simp [truthyOpt, truthy]
  have harrb : tryArrayTraversal "b" schema = none := by
    simp [tryArrayTraversal, show jsParseInt "b" = none from rfl]
  have htt := tryTypes_fence_strings fuel schema aSchema hprops haddp hpat hpn l
  simp only [getNextSchema]
  rw [hobjApp]
  simp only [if_true, tryObjectTraversal, tryObjectTail, hprops, hpat, hpn, haddp,
    truthyOpt, lookupFields, harrb, hsty]
  by_cases hlen : 1 < l.length
  · simp [hlen]
    show tryTypes (fuel + l.length + 1 + 1) "b" schema l
      ⟨ctx.root, ctx.definitions, ctx.visited, ctx.anchors⟩ = some (none, ctx.visited)
    exact htt ⟨ctx.root, ctx.definitions, ctx.visited, ctx.anchors⟩ hstrs
  · simp [hlen]

/-- Core of the C7 family, stated for the resolved node `R` (the schema
itself, or the schema with a truthy `not` stripped): `/a` reaches the
declared property and `/b` is fenced off, for any non-array `type` at
fuel `fuel + 2`, and for a `type` array of strings at
`fuel + l.length + 3`. -/
theorem c7_core (fuel : Nat) (schema R aSchema : Json)
    (hres : ∀ (F : Nat) (c : SchemaContext),
      resolveSchema (F + 1) schema c = some (R, c.visited))
    (htruthyR : truthy R = true)
    (hconstR : R.lookup "const" = none) (henumR : R.lookup "enum" = none)
    (hpropsR : R.lookup "properties" = some (.obj [("a", aSchema)]))
    (haddpR : R.lookup "additionalProperties" = some (.bool false))
    (htr : truthy aSchema = true)
    (hpatR : R.lookup "patternProperties" = none)
    (hpnR : R.lookup "propertyNames" = none) :
    ((∀ l, R.lookup "type" ≠ some (.arr l)) →
      validateJSONPointer (fuel + 2) "/a" schema = some true
      ∧ validateJSONPointer (fuel + 2) "/b" schema = some false)
    ∧ (∀ l : List Json, R.lookup "type" = some (.arr l) →
        (∀ x ∈ l, ∃ s, x = .str s) →
        validateJSONPointer (fuel + l.length + 3) "/a" schema = some true
        ∧ validateJSONPointer (fuel + l.length + 3) "/b" schema = some false) := by
  constructor
  · intro hnonarr
    constructor
    · show validateTokens (fuel + 1 + 1) ["a"] schema
        { root := schema
          definitions := spreadFields (objFieldsOfKey schema "$defs")
            (objFieldsOfKey schema "definitions")
          visited := []
          anchors := collectAnchors schema [] } = some true
      simp only [validateTokens, hres (fuel + 1), htruthyR, hconstR, henumR,
        gns_fence_a fuel R aSchema _ hpropsR htr, htr]
      simp
    · show validateTokens (fuel + 1 + 1) ["b"] schema
        { root := schema
          definitions := spreadFields (objFieldsOfKey schema "$defs")
            (objFieldsOfKey schema "definitions")
          visited := []
          anchors := collectAnchors schema [] } = some false
      simp only [validateTokens, hres (fuel + 1), htruthyR, hconstR, henumR,
        gns_fence_b_nonarr fuel R aSchema _ hpropsR haddpR hpatR hpnR hnonarr]
      simp
  · intro l hl hstrs
    constructor
    · show validateTokens (fuel + l.length + 1 + 1 + 1) ["a"] schema
        { root := schema
          definitions := spreadFields (objFieldsOfKey schema "$defs")
            (objFieldsOfKey schema "definitions")
          visited := []
          anchors := collectAnchors schema [] } = some true
      simp only [validateTokens, hres (fuel + l.length + 1 + 1), htruthyR, hconstR, henumR,
        gns_fence_a (fuel + l.length + 1) R aSchema _ hpropsR htr, htr]
      simp
    · show validateTokens (fuel + l.length + 1 + 1 + 1) ["b"] schema
        { root := schema
          definitions := spreadFields (objFieldsOfKey schema "$defs")
            (objFieldsOfKey schema "definitions")
          visited := []
          anchors := collectAnchors schema [] } = some false
      simp only [validateTokens, hres (fuel + l.length + 1 + 1), htruthyR, hconstR, henumR,
        gns_fence_b_arr fuel R aSchema _ l hpropsR haddpR hpatR hpnR hl hstrs]
      simp

/-- C7 amended: for every schema with `additionalProperties: false` and
`properties` containing exactly the key `a` (with a truthy subschema), no
`patternProperties`, `propertyNames` or `dependentSchemas`, and — as
counterexamples of the `const` shape force — no `const`, `enum`, `$ref`,
`$dynamicRef`, `allOf`, `anyOf`, `oneOf` or `if` keyword at the root:
`isValidPointer(\"/a\")` is true and `isValidPointer(\"/b\")` is false. A
root `not` keyword is permitted (resolution merely strips it), and `type`
may be absent, any non-array value, or an array of type strings (its
declared TypeScript type), with fuel growing by one per retried type in
the array case. -/
theorem c7_fenced_additional_properties (fuel : Nat) (schema aSchema : Json)
    (hprops : schema.lookup "properties" = some (.obj [("a", aSchema)]))
    (haddp : schema.lookup "additionalProperties" = some (.bool false))
    (htr : truthy aSchema = true)
    (hpat : schema.lookup "patternProperties" = none)
    (hpn : schema.lookup "propertyNames" = none)
    (_hdep : schema.lookup "dependentSchemas" = none)
    (hconst : schema.lookup "const" = none) (henum : schema.lookup "enum" = none)
    (h1 : schema.lookup "$ref" = none) (h2 : schema.lookup "$dynamicRef" = none)
    (h3 : schema.lookup "allOf" = none) (h4 : schema.lookup "anyOf" = none)
    (h5 : schema.lookup "oneOf" = none) (h7 : schema.lookup "if" = none) :
    ((∀ l, schema.lookup "type" ≠ some (.arr l)) →
      validateJSONPointer (fuel + 2) "/a" schema = some true
      ∧ validateJSONPointer (fuel + 2) "/b" schema = some false)
    ∧ (∀ l : List Json, schema.lookup "type" = some (.arr l) →
        (∀ x ∈ l, ∃ s, x = .str s) →
        validateJSONPointer (fuel + l.length + 3) "/a" schema = some true
        ∧ validateJSONPointer (fuel + l.length + 3) "/b" schema = some false) := by
  by_cases hn : truthyOpt (schema.lookup "not") = true
  · have herase : ∀ k2, k2 ≠ "not" →
        (eraseKey schema "not").lookup k2 = schema.lookup k2 :=
      fun k2 hk => lookup_eraseKey_ne schema "not" k2 hk
    have hres : ∀ (F : Nat) (c : SchemaContext),
        resolveSchema (F + 1) schema c = some (eraseKey schema "not", c.visited) := by
      intro F c
      rw [resolveSchema_noRefs F schema c h1 h2 h3 h4 h5 h7, if_pos hn]
    have hcore := c7_core fuel schema (eraseKey schema "not") aSchema hres
      rfl
      ((herase "const" (by decide)).trans hconst)
      ((herase "enum" (by decide)).trans henum)
      ((herase "properties" (by decide)).trans hprops)
      ((herase "additionalProperties" (by decide)).trans haddp)
      htr
      ((herase "patternProperties" (by decide)).trans hpat)
      ((herase "propertyNames" (by decide)).trans hpn)
    refine ⟨fun hnonarr => hcore.1 ?_, fun l hl hstrs => hcore.2 l ?_ hstrs⟩
    · intro l hl
      rw [herase "type" (by decide)] at hl
      exact hnonarr l hl
    · rw [herase "type" (by decide)]
      exact hl
  · have hres : ∀ (F : Nat) (c : SchemaContext),
        resolveSchema (F + 1) schema c = some (schema, c.visited) := by
      intro F c
      rw [resolveSchema_noRefs F schema c h1 h2 h3 h4 h5 h7, if_neg hn]
    exact c7_core fuel schema schema aSchema hres (lookup_truthy hprops)
      hconst henum hprops haddp htr hpat hpn

/-- Witness for C7 amended: a plain fenced schema, the same schema with
the multi-type declaration `[\"object\", \"array\"]`, and the same schema
carrying a root `not` keyword - each admits `/a` and rejects `/b`. -/
theorem c7_fenced_additional_properties_witness :
    (validateJSONPointer 2 "/a"
        (.obj [("properties", .obj [("a", .obj [("type", .str "string")])]),
          ("additionalProperties", .bool false)]) = some true
      ∧ validateJSONPointer 2 "/b"
        (.obj [("properties", .obj [("a", .obj [("type", .str "string")])]),
          ("additionalProperties", .bool false)]) = some false)
    ∧ (validateJSONPointer 5 "/a"
        (.obj [("type", .arr [.str "object", .str "array"]),
          ("properties", .obj [("a", .obj [])]),
          ("additionalProperties", .bool false)]) = some true
      ∧ validateJSONPointer 5 "/b"
        (.obj [("type", .arr [.str "object", .str "array"]),
          ("properties", .obj [("a", .obj [])]),
          ("additionalProperties", .bool false)]) = some false)
    ∧ (validateJSONPointer 2 "/a"
        (.obj [("not", .obj [("type", .str "number")]),
          ("properties", .obj [("a", .obj [])]),
          ("additionalProperties", .bool false)]) = some true
      ∧ validateJSONPointer 2 "/b"
        (.obj [("not", .obj [("type", .str "number")]),
          ("properties", .obj [("a", .obj [])]),
          ("additionalProperties", .bool false)]) = some false) :=
  ⟨(c7_fenced_additional_properties 0
      (.obj [("properties", .obj [("a", .obj [("type", .str "string")])]),
        ("additionalProperties", .bool false)])
      (.obj [("type", .str "string")])
      rfl rfl rfl rfl rfl rfl rfl rfl rfl rfl rfl rfl rfl rfl).1
      (fun _l hl => Option.noConfusion hl),
   (c7_fenced_additional_properties 0
      (.obj [("type", .arr [.str "object", .str "array"]),
        ("properties", .obj [("a", .obj [])]),
        ("additionalProperties", .bool false)])
      (.obj [])
      rfl rfl rfl rfl rfl rfl rfl rfl rfl rfl rfl rfl rfl rfl).2
      [.str "object", .str "array"] rfl
      (fun x hx => by
        rcases List.mem_cons.mp hx with rfl | hx2
        · exact ⟨"object", rfl⟩
        · rcases List.mem_cons.mp hx2 with rfl | hx3
          · exact ⟨"array", rfl⟩
          · exact absurd hx3 (List.not_mem_nil x)),
   (c7_fenced_additional_properties 0
      (.obj [("not", .obj [("type", .str "number")]),
        ("properties", .obj [("a", .obj [])]),
        ("additionalProperties", .bool false)])
      (.obj [])
      rfl rfl rfl rfl rfl rfl rfl rfl rfl rfl rfl rfl rfl rfl).1
      (fun _l hl => Option.noConfusion hl)⟩
